import Mathlib

/-!
Verification development for the Threadshift core: a shallow embedding of
the zone-swap engine (`src/zoneswapengine.js.js`, class
`ThreadshiftZoneSwapEngine`), the history tracker
(`src/unnamed/part_003`, class `ThreadshiftHistoryTracker`) and the
multi-character cache (`src/unnamed/part_001`, class
`ThreadshiftMultiCharacterHandler`), together with proofs of the spec's
claims about them.

Modelling conventions:
* JavaScript body maps (`zone name -> zone data object`) are modelled as
  total functions `Zone -> Option ZoneData`; `none` stands for an absent
  key or an `undefined` value (both read back as `undefined` in JS, and
  zone-data objects are always truthy, so presence coincides with
  truthiness of `bodyMap[zone]`).
* Persistent storage (`storage.loadBodyMap` / `storage.saveBodyMap`) is a
  map `CharId -> Option BodyMap`.  A save is an asynchronous operation
  that can reject; this is modelled by an outcome oracle
  `saveOutcomes : Nat -> Bool` consumed at a monotone clock: `false`
  means the awaited save threw (and persisted nothing), `true` means it
  persisted.  Loads never throw for the non-empty character ids reaching
  them and return `none` for unknown characters, as in
  `ThreadshiftStorageManager.loadBodyMap`.
* The external collaborators `garmentZoneMapper` and `bodyMapValidator`
  (injected dependencies, required by `validateDependencies` for a ready
  engine) are parameters of the model: a zone mapper
  `String -> List Zone` and a validator returning a `ValidationResult`.
  A validator call that throws is subsumed by an invalid result, exactly
  as the engine's `validateSwap` catch branch produces.
* `reciprocalSwapHandler` is `null` in the repository (nothing assigns
  it), so the `handleReciprocal` call is skipped, as the guard
  `swapData.reciprocal && this.reciprocalSwapHandler` does.
* Timestamps (`Date.now`, ISO strings) carry no observable behaviour for
  the claims and are omitted; swap ids keep only the strictly increasing
  `++this.swapCounter` component.
-/

/-- Character identifiers, as the JS string ids. -/
abbrev CharId := String

/-- Body-zone names. -/
abbrev Zone := String

/-- Opaque zone-descriptor payload (`descriptor`/`care`/`marks`... blob).
The engine only moves these values around, never inspects them. -/
abbrev ZoneData := String

/-- A character body map: zone name to optional zone data.  `none` models
an absent key (or an `undefined` value, which JS reads identically). -/
abbrev BodyMap := Zone → Option ZoneData

/-- The empty body map (`{}`; also what spreading `null` produces). -/
def emptyBodyMap : BodyMap := fun _ => none

/-- JS computed-key spread `\x7b ...map, [zone]: value \x7d`: update one key. -/
def setZone (m : BodyMap) (z : Zone) (v : Option ZoneData) : BodyMap :=
  fun w => if w = z then v else m w

/-- JS object spread `\x7b ...base, ...patch \x7d`: keys present in `patch`
win, the rest comes from `base`. -/
def overrideMap (base patch : BodyMap) : BodyMap :=
  fun z => match patch z with
  | some v => some v
  | none => base z

/-- Coerce a possibly-`null` body map to a map, as `\x7b ...null \x7d = \x7b\x7d`. -/
def orEmpty (m : Option BodyMap) : BodyMap :=
  fun z => match m with
  | some f => f z
  | none => none

/-- `ThreadshiftZoneSwapEngine.cloneBodyMapZones`: deep-copies the listed
zones that are present (truthy) in the body map; absent zones are
skipped, so they are missing from the snapshot as well. -/
def cloneBodyMapZones (bodyMap : Option BodyMap) (zones : List Zone) : BodyMap :=
  fun z => if z ∈ zones then orEmpty bodyMap z else none

/-- `swapData.status` values. -/
inductive SwapStatus where
  | active
  | reversed
  | failed
deriving DecidableEq, Repr

/-- A swap record (`swapData` in `executeSwap`): id, the two characters,
the zone list, status, and the pre-swap snapshots
(`originalStates.source` / `originalStates.target`).  The snapshot pair
is optional because the JS field is only assigned inside `executeSwap`. -/
structure SwapData where
  id : Nat
  sourceCharId : CharId
  targetCharId : CharId
  zones : List Zone
  status : SwapStatus
  originalStates : Option (BodyMap × BodyMap)

/-- Per-zone outcome returned by `applyZoneSwap`. -/
structure ZoneResult where
  zone : Zone
  success : Bool
deriving DecidableEq, Repr

/-- Result object of a completed `executeSwap`. -/
structure SwapResult where
  success : Bool
  swapId : Nat
  zones : List Zone
  results : List ZoneResult
deriving DecidableEq, Repr

/-- Result object of `reverseSwap`'s inner try/catch. -/
structure ReverseResult where
  success : Bool
  swapId : Nat
deriving DecidableEq, Repr

/-- The engine's `stats` counters. -/
structure EngineStats where
  totalSwaps : Nat
  successfulSwaps : Nat
  failedSwaps : Nat
  reversedSwaps : Nat
  validationErrors : Nat
deriving DecidableEq, Repr

/-- Validator verdict (`\x7b valid, errors \x7d`). -/
structure ValidationResult where
  valid : Bool
  errors : List String
deriving DecidableEq, Repr

/-- The engine settings consulted by `performSwap` (defaults in the
constructor: `autoValidation = true`, `validateTransformations = true`,
`allowPartialTransformations = true`, `historyLimit = 100`). -/
structure Settings where
  autoValidation : Bool
  validateTransformations : Bool
  allowPartialTransformations : Bool
  historyLimit : Nat
deriving DecidableEq, Repr

/-- Constructor defaults of the settings fields the model keeps. -/
def defaultSettings : Settings :=
  { autoValidation := true
    validateTransformations := true
    allowPartialTransformations := true
    historyLimit := 100 }

/-- Injected collaborators plus settings: the garment-zone mapper and the
body-map validator are required dependencies of a ready engine. -/
structure EngineConfig where
  settings : Settings
  mapper : String → List Zone
  validator : Option BodyMap → Option BodyMap → List Zone → ValidationResult

/-- The mutable state an engine instance plus its storage backend hold:
storage contents, the save-outcome oracle and its clock, the
`activeSwaps` map, the `swapHistory` list, the `swapCounter`, the stats
and the module error log (`this.errors`, filled by `handleError`). -/
structure EngineState where
  storage : CharId → Option BodyMap
  saveOutcomes : Nat → Bool
  saveClock : Nat
  activeSwaps : Nat → Option SwapData
  swapHistory : List SwapData
  swapCounter : Nat
  stats : EngineStats
  errors : List String

/-- Advance the save clock by one consumed outcome. -/
def tick (st : EngineState) : EngineState :=
  { st with saveClock := st.saveClock + 1 }

/-- Overwrite one character's stored body map. -/
def storeMap (st : EngineState) (c : CharId) (m : BodyMap) : EngineState :=
  { st with storage := fun d => if d = c then some m else st.storage d }

/-- One awaited `storage.saveBodyMap(c, m)`: consumes the next save
outcome; on `true` the map is persisted, on `false` the save threw and
nothing was persisted. -/
def saveBodyMapOp (st : EngineState) (c : CharId) (m : BodyMap) : EngineState × Bool :=
  match st.saveOutcomes st.saveClock with
  | true => (storeMap (tick st) c m, true)
  | false => (tick st, false)

/-- Read one zone of one character straight out of storage. -/
def loadZone (st : EngineState) (c : CharId) (z : Zone) : Option ZoneData :=
  orEmpty (st.storage c) z

/-- Append a handled error to the module error log (`handleError`). -/
def pushError (st : EngineState) (msg : String) : EngineState :=
  { st with errors := st.errors ++ [msg] }

/-- `ThreadshiftZoneSwapEngine.applyZoneSwap`: re-loads both body maps,
exchanges the single zone's value, saves source then target.  Every
error is caught inside the method, which then reports
`success = false` for that zone instead of rethrowing. -/
def applyZoneSwap (src tgt : CharId) (st : EngineState) (z : Zone) :
    EngineState × ZoneResult :=
  match st.storage src, st.storage tgt with
  | some sm, some tm =>
    match saveBodyMapOp st src (setZone sm z (tm z)) with
    | (st1, true) =>
      match saveBodyMapOp st1 tgt (setZone tm z (sm z)) with
      | (st2, true) => (st2, ⟨z, true⟩)
      | (st2, false) => (st2, ⟨z, false⟩)
    | (st1, false) => (st1, ⟨z, false⟩)
  | some _, none => (st, ⟨z, false⟩)
  | none, _ => (st, ⟨z, false⟩)

/-- The `for (const zone of zones)` loop of `executeSwap`, collecting the
per-zone results in order. -/
def runZoneSwaps (src tgt : CharId) (st : EngineState) :
    List Zone → EngineState × List ZoneResult
  | [] => (st, [])
  | z :: rest =>
    match applyZoneSwap src tgt st z with
    | (st1, r) =>
      match runZoneSwaps src tgt st1 rest with
      | (st2, rs) => (st2, r :: rs)

/-- `addToHistory`: unshift the record, then trim the tail beyond
`historyLimit`. -/
def addToHistoryE (limit : Nat) (sd : SwapData) (h : List SwapData) : List SwapData :=
  if (sd :: h).length > limit then (sd :: h).take limit else sd :: h

/-- `updateHistoryEntry`: replace the first record with the given id. -/
def updateHistoryEntry (swapId : Nat) (sd : SwapData) : List SwapData → List SwapData
  | [] => []
  | e :: rest => if e.id = swapId then sd :: rest else e :: updateHistoryEntry swapId sd rest

/-- `ThreadshiftZoneSwapEngine.executeSwap`: generate the id, snapshot
the pre-swap zones of both characters, run the per-zone loop, register
the record as `active` and append it to the history.  With the
repository wiring nothing inside the `try` can throw (`applyZoneSwap`
catches its own errors and `reciprocalSwapHandler` is absent), so the
catch branch that would mark the record `failed` is unreachable and the
method always returns `success: true`. -/
def executeSwap (cfg : EngineConfig) (st : EngineState) (src tgt : CharId)
    (zones : List Zone) : EngineState × SwapResult :=
  let swapId := st.swapCounter + 1
  let st0 : EngineState := { st with swapCounter := swapId }
  let origSrc := cloneBodyMapZones (st0.storage src) zones
  let origTgt := cloneBodyMapZones (st0.storage tgt) zones
  match runZoneSwaps src tgt st0 zones with
  | (st1, results) =>
    let sd : SwapData :=
      ⟨swapId, src, tgt, zones, SwapStatus.active, some (origSrc, origTgt)⟩
    ({ st1 with
        activeSwaps := fun i => if i = swapId then some sd else st1.activeSwaps i
        swapHistory := addToHistoryE cfg.settings.historyLimit sd st1.swapHistory },
     ⟨true, swapId, zones, results⟩)

/-- The fixed garment-type table of `getGarmentById`. -/
def garmentTypes : List String :=
  ["bra", "panties", "dress", "shirt", "pants", "skirt", "shoes", "socks"]

/-- Split a character list at every dot, as `garmentId.split('.')` does. -/
def splitCharsOnDot : List Char → List (List Char)
  | [] => [[]]
  | c :: rest =>
    if c = '.' then [] :: splitCharsOnDot rest
    else
      match splitCharsOnDot rest with
      | [] => [[c]]
      | g :: gs => (c :: g) :: gs

/-- `parseInt(s, 10)` on the shapes the engine feeds it: the leading run
of decimal digits, `none` when there is no leading digit (`NaN`). -/
def parseDigits : List Char → Option Nat
  | [] => none
  | c :: rest =>
    if c.isDigit then
      some (parseDigitsAux (c.toNat - 48) rest)
    else none
where
  parseDigitsAux (acc : Nat) : List Char → Nat
    | [] => acc
    | c :: rest =>
      if c.isDigit then parseDigitsAux (acc * 10 + (c.toNat - 48)) rest
      else acc

/-- `getGarmentById`: parse `CHARACTERID.TYPEINDEX` and resolve the type;
any malformed id throws, which `safeOperation` later turns into the
`null` fallback, so the model returns `none` for those. -/
def getGarmentById (garmentId : String) : Option String :=
  match splitCharsOnDot garmentId.data with
  | [_, typeIndex] =>
    match parseDigits typeIndex with
    | some n => garmentTypes.get? n
    | none => none
  | _ => none

/-- The engine's fallback `zoneMapping` table from `getZonesForGarment`
(used when no external mapper is injected; a ready engine delegates to
the injected `garmentZoneMapper`, which the model keeps as a
parameter). -/
def fallbackZoneMapping (t : String) : List Zone :=
  if t = "bra" then ["chest"]
  else if t = "panties" then ["genitals"]
  else if t = "dress" then ["chest", "waist", "hips"]
  else if t = "shirt" then ["chest", "waist"]
  else if t = "pants" then ["waist", "hips", "legs"]
  else if t = "skirt" then ["waist", "hips"]
  else if t = "shoes" then ["feet"]
  else if t = "socks" then ["feet"]
  else []

/-- Bump `stats.totalSwaps`. -/
def bumpTotal (st : EngineState) : EngineState :=
  { st with stats := { st.stats with totalSwaps := st.stats.totalSwaps + 1 } }

/-- Bump `stats.validationErrors`. -/
def bumpValidationErrors (st : EngineState) : EngineState :=
  { st with stats := { st.stats with validationErrors := st.stats.validationErrors + 1 } }

/-- Bump `stats.successfulSwaps`. -/
def bumpSuccessful (st : EngineState) : EngineState :=
  { st with stats := { st.stats with successfulSwaps := st.stats.successfulSwaps + 1 } }

/-- Bump `stats.reversedSwaps`. -/
def bumpReversed (st : EngineState) : EngineState :=
  { st with stats := { st.stats with reversedSwaps := st.stats.reversedSwaps + 1 } }

/-- Tail of `performSwap` after validation: run `executeSwap`, count the
success, and hand the result back through `safeOperation`. -/
def finishSwap (cfg : EngineConfig) (st : EngineState) (src tgt : CharId)
    (zones : List Zone) : EngineState × Option SwapResult :=
  match executeSwap cfg st src tgt zones with
  | (st1, res) => (bumpSuccessful st1, some res)

/-- `ThreadshiftZoneSwapEngine.performSwap` on a ready engine.  The whole
body runs inside `safeOperation('performSwap', ..., null)`: any throw is
handled (`handleError` records it in `this.errors`) and the caller
receives the `null` fallback, modelled as `none`. -/
def performSwap (cfg : EngineConfig) (st : EngineState)
    (srcId tgtId garmentId : String) : EngineState × Option SwapResult :=
  let st := bumpTotal st
  if srcId = "" ∨ tgtId = "" ∨ garmentId = "" then
    (pushError st "Missing required parameters: sourceCharId, targetCharId, garmentId", none)
  else if srcId = tgtId then
    (pushError st "Source and target characters cannot be the same", none)
  else
    match getGarmentById garmentId with
    | none => (pushError st "Garment not found", none)
    | some gtype =>
      let zones := cfg.mapper gtype
      if zones = [] then
        (pushError st "No zones found for garment type", none)
      else if cfg.settings.autoValidation && cfg.settings.validateTransformations then
        if (cfg.validator (st.storage srcId) (st.storage tgtId) zones).valid then
          finishSwap cfg st srcId tgtId zones
        else
          let st := bumpValidationErrors st
          if cfg.settings.allowPartialTransformations then
            finishSwap cfg st srcId tgtId zones
          else
            (pushError st "Swap validation failed", none)
      else
        finishSwap cfg st srcId tgtId zones

/-- Success tail of `reverseSwap`: mark the record `reversed`, remove it
from `activeSwaps`, update the history entry in place, and count the
reversal.  Runs only after both restore saves succeeded. -/
def finalizeReverse (st2 : EngineState) (swapId : Nat) (sd : SwapData) : EngineState :=
  bumpReversed
    { st2 with
        activeSwaps := fun i => if i = swapId then none else st2.activeSwaps i
        swapHistory := updateHistoryEntry swapId { sd with status := SwapStatus.reversed }
          st2.swapHistory }

/-- `ThreadshiftZoneSwapEngine.reverseSwap` on a ready engine.  The
precondition checks throw, which `safeOperation` converts to the `none`
fallback; the restoration itself runs in an inner try/catch whose catch
returns a `success: false` object instead.  Both characters are restored
by spreading the snapshot over the freshly loaded map; the record is
marked `reversed` and removed from `activeSwaps` only after both saves
succeeded. -/
def reverseSwap (st : EngineState) (swapId : Nat) :
    EngineState × Option ReverseResult :=
  match st.activeSwaps swapId with
  | none => (pushError st "Active swap not found", none)
  | some sd =>
    if sd.status ≠ SwapStatus.active then
      (pushError st "Swap is not in active state", none)
    else
      match sd.originalStates with
      | none => (pushError st "No original states stored for swap", none)
      | some (os, ot) =>
        let restoredSrc := overrideMap (orEmpty (st.storage sd.sourceCharId)) os
        let restoredTgt := overrideMap (orEmpty (st.storage sd.targetCharId)) ot
        match saveBodyMapOp st sd.sourceCharId restoredSrc with
        | (st1, true) =>
          match saveBodyMapOp st1 sd.targetCharId restoredTgt with
          | (st2, true) => (finalizeReverse st2 swapId sd, some ⟨true, swapId⟩)
          | (st2, false) => (pushError st2 "reverseSwap failed", some ⟨false, swapId⟩)
        | (st1, false) => (pushError st1 "reverseSwap failed", some ⟨false, swapId⟩)

/-- `ThreadshiftZoneSwapEngine.performCleanup`: drop old history entries
(the 24-hour cutoff is modelled by the caller-supplied `recent`
predicate) and drop `failed` records from `activeSwaps`. -/
def performCleanupE (st : EngineState) (recent : SwapData → Bool) : EngineState :=
  { st with
      swapHistory := st.swapHistory.filter recent
      activeSwaps := fun i =>
        match st.activeSwaps i with
        | some sd => if sd.status = SwapStatus.failed then none else some sd
        | none => none }

/-!
History tracker (`src/unnamed/part_003`, `ThreadshiftHistoryTracker`).

Entries are opaque to the index arithmetic: the model uses `Nat` ids for
them, and the orphan-cleanup filter (`entry.data && typeof entry.data ===
'object'`) and the import-time validation filter become caller-supplied
predicates/lists, since they inspect nothing the index logic depends on.
`currentIndex` is a JS number that legitimately takes the value `-1`, so
it is an `Int` here; `undo`/`redo` delegate to `executeUndo`/`executeRedo`
whose outcome is a parameter (the in-repository placeholder always
succeeds).
-/

/-- History entries carry only an identity for the index logic. -/
abbrev HistEntry := Nat

/-- The tracker state: the `history` array, the `currentIndex`, and the
`maxHistorySize` capacity (the constructor sets 50 and
`loadConfigurationSettings` clamps it into `[1, 1000]`). -/
structure HistoryState where
  history : List HistEntry
  currentIndex : Int
  maxHistorySize : Nat
deriving DecidableEq, Repr

/-- `enforceHistoryLimit`: when over capacity, drop the oldest entries
from the head and shift the index down, never below 0. -/
def enforceHistoryLimit (s : HistoryState) : HistoryState :=
  if s.history.length > s.maxHistorySize then
    let excess := s.history.length - s.maxHistorySize
    { s with
        history := s.history.drop excess
        currentIndex := max 0 (s.currentIndex - excess) }
  else s

/-- `addEntryToHistory`: truncate the redo branch when the index is not
at the tail, append, point the index at the new tail, then enforce the
capacity limit. -/
def addEntryToHistory (s : HistoryState) (e : HistEntry) : HistoryState :=
  let h :=
    if s.currentIndex < (s.history.length : Int) - 1 then
      s.history.take (s.currentIndex + 1).toNat
    else s.history
  let h2 := h ++ [e]
  enforceHistoryLimit { s with history := h2, currentIndex := (h2.length : Int) - 1 }

/-- `canUndo`: derived purely from the index and length. -/
def canUndo (s : HistoryState) : Bool :=
  decide (0 ≤ s.currentIndex) && decide (0 < s.history.length)

/-- `canRedo`: derived purely from the index and length. -/
def canRedo (s : HistoryState) : Bool :=
  decide (s.currentIndex < (s.history.length : Int) - 1)

/-- `undo`: on success of the delegated inverse operation the index moves
one step left; on failure (or when nothing can be undone) it stays. -/
def histUndo (s : HistoryState) (outcome : Bool) : HistoryState × Bool :=
  if canUndo s then
    if outcome then ({ s with currentIndex := s.currentIndex - 1 }, true)
    else (s, false)
  else (s, false)

/-- `redo`: the index moves right before the delegated re-apply runs and
is moved back when it fails or throws. -/
def histRedo (s : HistoryState) (outcome : Bool) : HistoryState × Bool :=
  if canRedo s then
    if outcome then ({ s with currentIndex := s.currentIndex + 1 }, true)
    else (s, false)
  else (s, false)

/-- `clearHistory` (after confirmation): empty log, index `-1`. -/
def histClear (s : HistoryState) : HistoryState :=
  { s with history := [], currentIndex := -1 }

/-- `importHistory`: both the replace and the merge strategy end with
some imported list installed, the index at its tail and the capacity
enforced; the installed list is the parameter. -/
def histImport (s : HistoryState) (imported : List HistEntry) : HistoryState :=
  enforceHistoryLimit
    { s with history := imported, currentIndex := (imported.length : Int) - 1 }

/-- `cleanupOrphanedReferences`: filter the log; when entries were
removed, clamp the index to the new last position. -/
def cleanupOrphanedReferences (s : HistoryState) (keep : HistEntry → Bool) :
    HistoryState :=
  let h := s.history.filter keep
  if s.history.length ≠ h.length then
    { s with history := h, currentIndex := min s.currentIndex ((h.length : Int) - 1) }
  else
    { s with history := h }

/-- `performCleanup`: enforce the limit, then clean orphaned entries. -/
def histCleanup (s : HistoryState) (keep : HistEntry → Bool) : HistoryState :=
  cleanupOrphanedReferences (enforceHistoryLimit s) keep

/-!
Character cache (`src/unnamed/part_001`, `ThreadshiftMultiCharacterHandler`).

The cache model folds `characterCache`, `characterStates` and
`lastAccessTimes` (which the handler keeps key-synchronised) into one
entry list in Map insertion order; each entry carries the
`calculateStateSize` of its state and its last-access time.
`memoryUsageBytes` is the separately tracked counter of the source (an
`Int`, since the JS number is adjusted by += / -=), and the byte limits
are the `maxMemoryMB * 1024 * 1024` products.
-/

/-- One cached character entry. -/
structure CacheEntry where
  charId : CharId
  size : Nat
  lastAccess : Nat
deriving DecidableEq, Repr

/-- The handler's cache-relevant state. -/
structure CacheState where
  entries : List CacheEntry
  activeCharacterId : Option CharId
  memoryUsageBytes : Int
  maxCachedCharacters : Nat
  maxMemoryBytes : Nat
  memoryThresholdBytes : Nat
  evictions : Nat
  memoryPressureEvents : Nat
deriving DecidableEq, Repr

/-- The selection loop of `evictCharacters`: walk the LRU-sorted
non-pinned entries, push each onto the eviction list, and stop as soon
as the freed bytes reach `requiredBytes` while the remaining count is
under `maxCachedCharacters`. -/
def selectEvict (cacheSize maxCached requiredBytes : Nat) :
    List CacheEntry → Nat → Nat → List CacheEntry
  | [], _, _ => []
  | e :: rest, freed, picked =>
    let freed2 := freed + e.size
    let picked2 := picked + 1
    if requiredBytes ≤ freed2 ∧ cacheSize - picked2 < maxCached then [e]
    else e :: selectEvict cacheSize maxCached requiredBytes rest freed2 picked2

/-- `evictCharacters(requiredBytes)`: sort the non-pinned entries by last
access (the JS `sort` with comparator `timeA - timeB` is stable and the
key is total, so any stable ascending sort — here insertion sort —
produces the same list), pick victims with `selectEvict`, remove them
(their states are flushed fire-and-forget, which does not change the
cache state), subtract their sizes from the tracked usage, and count a
memory-pressure event when usage is still above the threshold. -/
def evictCharacters (s : CacheState) (requiredBytes : Nat) : CacheState :=
  if s.entries = [] then s
  else
    let sorted :=
      (s.entries.filter (fun e => some e.charId ≠ s.activeCharacterId)).insertionSort
        (fun a b => a.lastAccess ≤ b.lastAccess)
    let toEvict := selectEvict s.entries.length s.maxCachedCharacters requiredBytes sorted 0 0
    let usage := s.memoryUsageBytes - ((toEvict.map (fun e => (e.size : Int))).sum)
    { s with
        entries := s.entries.filter (fun e => e ∉ toEvict)
        memoryUsageBytes := usage
        evictions := s.evictions + toEvict.length
        memoryPressureEvents :=
          if usage > (s.memoryThresholdBytes : Int) then s.memoryPressureEvents + 1
          else s.memoryPressureEvents }

/-- Insert or replace an entry in Map insertion order (`Map.set`). -/
def putEntry (entry : CacheEntry) : List CacheEntry → List CacheEntry
  | [] => [entry]
  | e :: rest =>
    if e.charId = entry.charId then entry :: rest else e :: putEntry entry rest

/-- `cacheCharacter(characterId, state)`: evict for space when the new
state would push the tracked usage over the memory budget, evict for
count when the cache is full, then insert the entry and add its size to
the tracked usage. -/
def cacheCharacter (s : CacheState) (charId : CharId) (size now : Nat) : CacheState :=
  let s1 := if s.memoryUsageBytes + (size : Int) > (s.maxMemoryBytes : Int)
    then evictCharacters s size else s
  let s2 := if s1.entries.length ≥ s1.maxCachedCharacters
    then evictCharacters s1 0 else s1
  { s2 with
      entries := putEntry ⟨charId, size, now⟩ s2.entries
      memoryUsageBytes := s2.memoryUsageBytes + (size : Int) }

/-!
History tracker proofs.
-/

/-- The History Stack index invariant of the spec, with the capacity
lower bound that the constructor default (50) and
`loadConfigurationSettings` (clamping into `[1, 1000]`) both establish. -/
def historyInv (s : HistoryState) : Prop :=
  -1 ≤ s.currentIndex ∧ s.currentIndex ≤ (s.history.length : Int) - 1 ∧
    1 ≤ s.maxHistorySize

instance (s : HistoryState) : Decidable (historyInv s) := by
  unfold historyInv; infer_instance

theorem tailIndexInv (hist : List HistEntry) (m : Nat) (hm : 1 ≤ m) :
    historyInv ⟨hist, (hist.length : Int) - 1, m⟩ := by
  refine ⟨?_, ?_, hm⟩ <;> dsimp only <;> omega

theorem enforceHistoryLimit_inv (s : HistoryState) (h : historyInv s) :
    historyInv (enforceHistoryLimit s) := by
  obtain ⟨h1, h2, h3⟩ := h
  unfold enforceHistoryLimit
  split
  case isTrue hlen =>
    refine ⟨?_, ?_, h3⟩ <;> simp only [List.length_drop] <;> omega
  case isFalse hlen => exact ⟨h1, h2, h3⟩

theorem addEntryToHistory_inv (s : HistoryState) (e : HistEntry)
    (h : historyInv s) : historyInv (addEntryToHistory s e) := by
  simp only [addEntryToHistory]
  exact enforceHistoryLimit_inv _ (tailIndexInv _ _ h.2.2)

theorem histUndo_inv (s : HistoryState) (b : Bool) (h : historyInv s) :
    historyInv (histUndo s b).1 := by
  obtain ⟨h1, h2, h3⟩ := h
  unfold histUndo
  split
  case isTrue hc =>
    simp only [canUndo, Bool.and_eq_true, decide_eq_true_eq] at hc
    split
    · refine ⟨?_, ?_, h3⟩ <;> dsimp only <;> omega
    · exact ⟨h1, h2, h3⟩
  case isFalse hc => exact ⟨h1, h2, h3⟩

theorem histRedo_inv (s : HistoryState) (b : Bool) (h : historyInv s) :
    historyInv (histRedo s b).1 := by
  obtain ⟨h1, h2, h3⟩ := h
  unfold histRedo
  split
  case isTrue hc =>
    simp only [canRedo, decide_eq_true_eq] at hc
    split
    · refine ⟨?_, ?_, h3⟩ <;> dsimp only <;> omega
    · exact ⟨h1, h2, h3⟩
  case isFalse hc => exact ⟨h1, h2, h3⟩

theorem histClear_inv (s : HistoryState) (h : historyInv s) :
    historyInv (histClear s) :=
  ⟨by simp [histClear], by simp [histClear], h.2.2⟩

theorem histImport_inv (s : HistoryState) (l : List HistEntry)
    (h : historyInv s) : historyInv (histImport s l) := by
  unfold histImport
  exact enforceHistoryLimit_inv _ (tailIndexInv _ _ h.2.2)

theorem cleanupOrphanedReferences_inv (s : HistoryState) (keep : HistEntry → Bool)
    (h : historyInv s) : historyInv (cleanupOrphanedReferences s keep) := by
  obtain ⟨h1, h2, h3⟩ := h
  simp only [cleanupOrphanedReferences]
  split
  case isTrue hne => refine ⟨?_, ?_, h3⟩ <;> dsimp only <;> omega
  case isFalse hne =>
    refine ⟨h1, ?_, h3⟩
    simp only [ne_eq, not_not] at hne
    simp only [← hne]
    exact h2

theorem histCleanup_inv (s : HistoryState) (keep : HistEntry → Bool)
    (h : historyInv s) : historyInv (histCleanup s keep) :=
  cleanupOrphanedReferences_inv _ _ (enforceHistoryLimit_inv s h)

theorem claim7_record_truncates_redo_branch (s : HistoryState) (e : HistEntry)
    (h1 : -1 ≤ s.currentIndex)
    (h2 : s.currentIndex < (s.history.length : Int) - 1)
    (h3 : s.history.length ≤ s.maxHistorySize) :
    (addEntryToHistory s e).history
      = s.history.take (s.currentIndex + 1).toNat ++ [e] ∧
    (addEntryToHistory s e).currentIndex
      = ((addEntryToHistory s e).history.length : Int) - 1 := by
  simp only [addEntryToHistory, if_pos h2]
  unfold enforceHistoryLimit
  rw [if_neg (by simp only [List.length_append, List.length_take,
    List.length_cons, List.length_nil]; omega)]
  exact ⟨rfl, rfl⟩

/-- History log `[A, B, C]` with the index at `B`. -/
def histC7 : HistoryState := ⟨[1, 2, 3], 1, 50⟩

/-- Witness for C7: recording `4` ("D") on `[1, 2, 3]` at index 1 gives
`[1, 2, 4]` with the index at the new tail. -/
theorem claim7_witness :
    (addEntryToHistory histC7 4).history = [1, 2, 4] ∧
    ((addEntryToHistory histC7 4).history
        = histC7.history.take (histC7.currentIndex + 1).toNat ++ [4] ∧
      (addEntryToHistory histC7 4).currentIndex
        = ((addEntryToHistory histC7 4).history.length : Int) - 1) :=
  ⟨by decide,
    claim7_record_truncates_redo_branch histC7 4 (by decide) (by decide) (by decide)⟩

/-- Claim C8: the current index always stays in `[-1, length - 1]`:
every public operation (recording, undo, redo, clearing, importing,
capacity trimming and orphan cleanup) preserves the bound. -/
theorem claim8_history_index_bounded (s : HistoryState) (e : HistEntry)
    (b1 b2 : Bool) (l : List HistEntry) (keep : HistEntry → Bool)
    (h : historyInv s) :
    historyInv (addEntryToHistory s e) ∧
    historyInv (histUndo s b1).1 ∧
    historyInv (histRedo s b2).1 ∧
    historyInv (histClear s) ∧
    historyInv (histImport s l) ∧
    historyInv (enforceHistoryLimit s) ∧
    historyInv (cleanupOrphanedReferences s keep) ∧
    historyInv (histCleanup s keep) :=
  ⟨addEntryToHistory_inv s e h, histUndo_inv s b1 h, histRedo_inv s b2 h,
    histClear_inv s h, histImport_inv s l h, enforceHistoryLimit_inv s h,
    cleanupOrphanedReferences_inv s keep h, histCleanup_inv s keep h⟩

/-- Witness for C8 at the concrete log `[1, 2, 3]`, index 1. -/
theorem claim8_witness :
    historyInv (addEntryToHistory histC7 9) ∧
    historyInv (histUndo histC7 true).1 ∧
    historyInv (histRedo histC7 false).1 ∧
    historyInv (histClear histC7) ∧
    historyInv (histImport histC7 [7]) ∧
    historyInv (enforceHistoryLimit histC7) ∧
    historyInv (cleanupOrphanedReferences histC7 (fun n => n % 2 = 0)) ∧
    historyInv (histCleanup histC7 (fun n => n % 2 = 0)) :=
  claim8_history_index_bounded histC7 9 true false [7] (fun n => n % 2 = 0)
    (by decide)

/-!
Cache proofs.
-/

theorem selectEvict_subset (cacheSize maxCached requiredBytes : Nat) :
    ∀ (l : List CacheEntry) (freed picked : Nat) (x : CacheEntry),
      x ∈ selectEvict cacheSize maxCached requiredBytes l freed picked → x ∈ l := by
  intro l
  induction l with
  | nil => intro freed picked x hx; simp [selectEvict] at hx
  | cons e rest ih =>
    intro freed picked x hx
    simp only [selectEvict] at hx
    split at hx
    · simp only [List.mem_singleton] at hx
      exact hx ▸ List.mem_cons_self e rest
    · rcases List.mem_cons.1 hx with h | h
      · exact h ▸ List.mem_cons_self e rest
      · exact List.mem_cons_of_mem e (ih _ _ x h)

/-- Every selected eviction victim is a non-pinned cache entry. -/
theorem evict_victims_not_pinned (s : CacheState) (requiredBytes : Nat)
    (x : CacheEntry)
    (hx : x ∈ selectEvict s.entries.length s.maxCachedCharacters requiredBytes
      ((s.entries.filter (fun e => some e.charId ≠ s.activeCharacterId)).insertionSort
        (fun a b => a.lastAccess ≤ b.lastAccess)) 0 0) :
    some x.charId ≠ s.activeCharacterId := by
  have h1 := selectEvict_subset _ _ _ _ _ _ _ hx
  rw [List.mem_insertionSort] at h1
  simpa using (List.mem_filter.1 h1).2

/-- Claim C9 (amended): an eviction pass never evicts the pinned/active
character's entry and only ever removes entries, so the entry-count
bound is preserved; the memory bound is not guaranteed (see the
counterexample), because the selection loop stops as soon as the freed
bytes reach `requiredBytes` while the count is under the limit. -/
theorem claim9_eviction_behaviour (s : CacheState) (r : Nat) (e : CacheEntry)
    (he : e ∈ s.entries) :
    (some e.charId = s.activeCharacterId → e ∈ (evictCharacters s r).entries) ∧
    (∀ x ∈ (evictCharacters s r).entries, x ∈ s.entries) ∧
    (evictCharacters s r).entries.length ≤ s.entries.length ∧
    (s.entries.length ≤ s.maxCachedCharacters →
      (evictCharacters s r).entries.length ≤ s.maxCachedCharacters) := by
  unfold evictCharacters
  split
  case isTrue hnil =>
    exact ⟨fun _ => he, fun x hx => hx, le_refl _, fun h => h⟩
  case isFalse hnil =>
    refine ⟨?_, ?_, ?_, ?_⟩
    · intro hp
      dsimp only
      rw [List.mem_filter]
      refine ⟨he, ?_⟩
      simp only [decide_eq_true_eq]
      intro hmem
      exact evict_victims_not_pinned s r e hmem hp
    · intro x hx
      dsimp only at hx
      exact (List.mem_filter.1 hx).1
    · exact List.length_filter_le _ _
    · intro h
      exact le_trans (List.length_filter_le _ _) h

/-- A concrete cache for the C9 counterexample and witness: pinned
character `c0` (not cached), entries `c1` (10 bytes, older) and `c2`
(200 bytes, newer), tracked usage 210 bytes, memory budget 100 bytes. -/
def cacheC9 : CacheState :=
  { entries := [⟨"c1", 10, 1⟩, ⟨"c2", 200, 2⟩]
    activeCharacterId := some "c0"
    memoryUsageBytes := 210
    maxCachedCharacters := 50
    maxMemoryBytes := 100
    memoryThresholdBytes := 100
    evictions := 0
    memoryPressureEvents := 0 }

/-- Counterexample to C9 as stated: after the eviction pass
`evictCharacters cacheC9 0` the cache still tracks 200 bytes, strictly
above the 100-byte budget, and the surviving over-budget entry `c2` is
not the pinned character, so the budget excess is not covered by the
pinned-entry exception.  (The pass freed the requested 0 bytes — it
evicted only the LRU entry `c1` — and the code merely fires a
memory-pressure event.) -/
theorem claim9_counterexample :
    (evictCharacters cacheC9 0).entries = [⟨"c2", 200, 2⟩] ∧
    (evictCharacters cacheC9 0).memoryUsageBytes = 200 ∧
    ¬ ((evictCharacters cacheC9 0).memoryUsageBytes ≤ (cacheC9.maxMemoryBytes : Int)) ∧
    some "c2" ≠ cacheC9.activeCharacterId ∧
    (evictCharacters cacheC9 0).memoryPressureEvents = 1 := by
  decide

/-- `cacheC9` with the pinned character `c0` itself cached. -/
def cacheC9p : CacheState :=
  { cacheC9 with entries := ⟨"c0", 1, 0⟩ :: cacheC9.entries }

/-- Witness for the amended C9 at `cacheC9p`: the pinned entry survives
the pass, nothing is added, and the count bound is preserved. -/
theorem claim9_witness :
    (some "c0" = cacheC9p.activeCharacterId →
      (⟨"c0", 1, 0⟩ : CacheEntry) ∈ (evictCharacters cacheC9p 0).entries) ∧
    (∀ x ∈ (evictCharacters cacheC9p 0).entries, x ∈ cacheC9p.entries) ∧
    (evictCharacters cacheC9p 0).entries.length ≤ cacheC9p.entries.length ∧
    (cacheC9p.entries.length ≤ cacheC9p.maxCachedCharacters →
      (evictCharacters cacheC9p 0).entries.length ≤ cacheC9p.maxCachedCharacters) :=
  claim9_eviction_behaviour cacheC9p 0 ⟨"c0", 1, 0⟩ (by decide)

/-!
Swap-engine proofs: field-preservation helpers.
-/

/-- The per-zone loop and the save operations leave every engine field
except `storage` and `saveClock` untouched. -/
def sameAux (st2 st : EngineState) : Prop :=
  st2.saveOutcomes = st.saveOutcomes ∧ st2.activeSwaps = st.activeSwaps ∧
  st2.swapHistory = st.swapHistory ∧ st2.swapCounter = st.swapCounter ∧
  st2.errors = st.errors

theorem sameAux_refl (st : EngineState) : sameAux st st :=
  ⟨rfl, rfl, rfl, rfl, rfl⟩

theorem sameAux_trans {st3 st2 st : EngineState}
    (h32 : sameAux st3 st2) (h21 : sameAux st2 st) : sameAux st3 st :=
  ⟨h32.1.trans h21.1, h32.2.1.trans h21.2.1, h32.2.2.1.trans h21.2.2.1,
    h32.2.2.2.1.trans h21.2.2.2.1, h32.2.2.2.2.trans h21.2.2.2.2⟩

theorem saveBodyMapOp_fields (st : EngineState) (c : CharId) (m : BodyMap) :
    sameAux (saveBodyMapOp st c m).1 st := by
  unfold saveBodyMapOp
  cases h : st.saveOutcomes st.saveClock
  · exact ⟨rfl, rfl, rfl, rfl, rfl⟩
  · exact ⟨rfl, rfl, rfl, rfl, rfl⟩

theorem applyZoneSwap_fields (src tgt : CharId) (st : EngineState) (z : Zone) :
    sameAux (applyZoneSwap src tgt st z).1 st := by
  cases hs : st.storage src with
  | none => simp only [applyZoneSwap, hs]; exact sameAux_refl st
  | some sm =>
  cases ht : st.storage tgt with
  | none => simp only [applyZoneSwap, hs, ht]; exact sameAux_refl st
  | some tm =>
  cases h1 : st.saveOutcomes st.saveClock with
  | false =>
    simp only [applyZoneSwap, saveBodyMapOp, hs, ht, h1]
    exact ⟨rfl, rfl, rfl, rfl, rfl⟩
  | true =>
    simp only [applyZoneSwap, saveBodyMapOp, hs, ht, h1]
    dsimp only [storeMap, tick]
    cases h2 : st.saveOutcomes (st.saveClock + 1)
    · exact ⟨rfl, rfl, rfl, rfl, rfl⟩
    · exact ⟨rfl, rfl, rfl, rfl, rfl⟩

theorem runZoneSwaps_fields (src tgt : CharId) :
    ∀ (zones : List Zone) (st : EngineState),
      sameAux (runZoneSwaps src tgt st zones).1 st := by
  intro zones
  induction zones with
  | nil => intro st; exact sameAux_refl st
  | cons z rest ih =>
    intro st
    rcases hz : applyZoneSwap src tgt st z with ⟨st1, r⟩
    have h1 : sameAux st1 st := by
      have := applyZoneSwap_fields src tgt st z
      rwa [hz] at this
    rcases hr : runZoneSwaps src tgt st1 rest with ⟨st2, rs⟩
    have h2 : sameAux st2 st1 := by
      have := ih st1
      rwa [hr] at this
    simp only [runZoneSwaps, hz, hr]
    exact sameAux_trans h2 h1

/-- Case analysis of a single `applyZoneSwap` when both body maps load:
on success both maps hold the exchanged value at `z`; when one of the
two saves throws (caught inside the method) the target map is untouched
and the source map differs from the original at most at `z`. -/
theorem applyZoneSwap_cases (src tgt : CharId) (st : EngineState) (z : Zone)
    (sm tm : BodyMap)
    (hs : st.storage src = some sm) (ht : st.storage tgt = some tm)
    (hne : src ≠ tgt) :
    ∃ st2 ok, applyZoneSwap src tgt st z = (st2, ⟨z, ok⟩) ∧
      sameAux st2 st ∧
      (∀ c, c ≠ src → c ≠ tgt → st2.storage c = st.storage c) ∧
      ((ok = true ∧ st2.storage src = some (setZone sm z (tm z)) ∧
          st2.storage tgt = some (setZone tm z (sm z))) ∨
       (ok = false ∧ st2.storage tgt = some tm ∧
          ∃ sm0, st2.storage src = some sm0 ∧ ∀ w, w ≠ z → sm0 w = sm w)) := by
  cases h1 : st.saveOutcomes st.saveClock with
  | false =>
    refine ⟨tick st, false, ?_, ⟨rfl, rfl, rfl, rfl, rfl⟩, fun c _ _ => rfl,
      Or.inr ⟨rfl, ht, sm, hs, fun w _ => rfl⟩⟩
    simp only [applyZoneSwap, saveBodyMapOp, hs, ht, h1]
  | true =>
    cases h2 : st.saveOutcomes (st.saveClock + 1) with
    | false =>
      refine ⟨tick (storeMap (tick st) src (setZone sm z (tm z))), false, ?_,
        ⟨rfl, rfl, rfl, rfl, rfl⟩, ?_, ?_⟩
      · simp only [applyZoneSwap, saveBodyMapOp, hs, ht, h1]
        dsimp only [storeMap, tick]
        rw [h2]
      · intro c hc1 hc2
        simp [tick, storeMap, if_neg hc1]
      · refine Or.inr ⟨rfl, ?_, setZone sm z (tm z), ?_, ?_⟩
        · simp [tick, storeMap, if_neg (Ne.symm hne), ht]
        · simp [tick, storeMap]
        · intro w hw
          simp [setZone, if_neg hw]
    | true =>
      refine ⟨storeMap (tick (storeMap (tick st) src (setZone sm z (tm z)))) tgt
          (setZone tm z (sm z)), true, ?_, ⟨rfl, rfl, rfl, rfl, rfl⟩, ?_, ?_⟩
      · simp only [applyZoneSwap, saveBodyMapOp, hs, ht, h1]
        dsimp only [storeMap, tick]
        rw [h2]
      · intro c hc1 hc2
        simp [tick, storeMap, if_neg hc1, if_neg hc2]
      · refine Or.inl ⟨rfl, ?_, ?_⟩
        · simp [tick, storeMap, if_neg hne]
        · simp [tick, storeMap]

/-- Characterization of the per-zone loop over duplicate-free zones: the
per-zone results list the zones in order; the final source/target maps
agree with the originals outside the zone list; every zone whose
exchange succeeded holds the exchanged values; characters other than the
two participants are untouched. -/
theorem runZoneSwaps_spec (src tgt : CharId) (hne : src ≠ tgt) :
    ∀ (zones : List Zone) (st : EngineState) (sm tm : BodyMap),
      zones.Nodup →
      st.storage src = some sm → st.storage tgt = some tm →
      ∃ sm2 tm2,
        (runZoneSwaps src tgt st zones).1.storage src = some sm2 ∧
        (runZoneSwaps src tgt st zones).1.storage tgt = some tm2 ∧
        (runZoneSwaps src tgt st zones).2.map ZoneResult.zone = zones ∧
        (∀ c, c ≠ src → c ≠ tgt →
          (runZoneSwaps src tgt st zones).1.storage c = st.storage c) ∧
        (∀ z, z ∉ zones → sm2 z = sm z ∧ tm2 z = tm z) ∧
        (∀ r ∈ (runZoneSwaps src tgt st zones).2, r.success = true →
          sm2 r.zone = tm r.zone ∧ tm2 r.zone = sm r.zone) := by
  intro zones
  induction zones with
  | nil =>
    intro st sm tm hnd hs ht
    exact ⟨sm, tm, hs, ht, rfl, fun c _ _ => rfl, fun z _ => ⟨rfl, rfl⟩,
      fun r hr => absurd hr (List.not_mem_nil r)⟩
  | cons z rest ih =>
    intro st sm tm hnd hs ht
    have hz : z ∉ rest := (List.nodup_cons.1 hnd).1
    have hndr : rest.Nodup := (List.nodup_cons.1 hnd).2
    obtain ⟨st2, ok, heq, haux, hoth, hcase⟩ :=
      applyZoneSwap_cases src tgt st z sm tm hs ht hne
    rcases hrec : runZoneSwaps src tgt st2 rest with ⟨st3, rs⟩
    have hstep : runZoneSwaps src tgt st (z :: rest) = (st3, ⟨z, ok⟩ :: rs) := by
      simp only [runZoneSwaps, heq, hrec]
    rw [hstep]
    rcases hcase with ⟨hok, hsrc2, htgt2⟩ | ⟨hok, htgt2, sm0, hsrc2, hsm0⟩
    · -- the exchange of z succeeded
      obtain ⟨sm2, tm2, h1, h2, h3, h4, h5, h6⟩ :=
        ih st2 (setZone sm z (tm z)) (setZone tm z (sm z)) hndr hsrc2 htgt2
      rw [hrec] at h1 h2 h3 h4 h6
      refine ⟨sm2, tm2, h1, h2, ?_, ?_, ?_, ?_⟩
      · simp [h3]
      · intro c hc1 hc2
        exact (h4 c hc1 hc2).trans (hoth c hc1 hc2)
      · intro w hw
        have hw1 : w ≠ z := fun hwz => hw (hwz ▸ List.mem_cons_self z rest)
        have hw2 : w ∉ rest := fun hwr => hw (List.mem_cons_of_mem z hwr)
        obtain ⟨ha, hb⟩ := h5 w hw2
        constructor
        · rw [ha]; simp [setZone, if_neg hw1]
        · rw [hb]; simp [setZone, if_neg hw1]
      · intro r hr hrs
        rcases List.mem_cons.1 hr with hhd | htl
        · subst hhd
          obtain ⟨ha, hb⟩ := h5 z hz
          constructor
          · rw [ha]; simp [setZone]
          · rw [hb]; simp [setZone]
        · have hzone : r.zone ∈ rest := by
            rw [← h3]
            exact List.mem_map_of_mem ZoneResult.zone htl
          have hzz : r.zone ≠ z := fun hrz => hz (hrz ▸ hzone)
          obtain ⟨ha, hb⟩ := h6 r htl hrs
          constructor
          · rw [ha]; simp [setZone, if_neg hzz]
          · rw [hb]; simp [setZone, if_neg hzz]
    · -- the exchange of z failed (caught inside applyZoneSwap)
      obtain ⟨sm2, tm2, h1, h2, h3, h4, h5, h6⟩ := ih st2 sm0 tm hndr hsrc2 htgt2
      rw [hrec] at h1 h2 h3 h4 h6
      refine ⟨sm2, tm2, h1, h2, ?_, ?_, ?_, ?_⟩
      · simp [h3]
      · intro c hc1 hc2
        exact (h4 c hc1 hc2).trans (hoth c hc1 hc2)
      · intro w hw
        have hw1 : w ≠ z := fun hwz => hw (hwz ▸ List.mem_cons_self z rest)
        have hw2 : w ∉ rest := fun hwr => hw (List.mem_cons_of_mem z hwr)
        obtain ⟨ha, hb⟩ := h5 w hw2
        exact ⟨ha.trans (hsm0 w hw1), hb⟩
      · intro r hr hrs
        rcases List.mem_cons.1 hr with hhd | htl
        · subst hhd
          simp only at hrs
          rw [hok] at hrs
          exact absurd hrs (by simp)
        · have hzone : r.zone ∈ rest := by
            rw [← h3]
            exact List.mem_map_of_mem ZoneResult.zone htl
          have hzz : r.zone ≠ z := fun hrz => hz (hrz ▸ hzone)
          obtain ⟨ha, hb⟩ := h6 r htl hrs
          exact ⟨ha, hb.trans (hsm0 r.zone hzz)⟩

/-- When the save oracle always succeeds and both maps load, a single
zone exchange takes the fully successful branch. -/
theorem applyZoneSwap_true (src tgt : CharId) (st : EngineState) (z : Zone)
    (sm tm : BodyMap)
    (hs : st.storage src = some sm) (ht : st.storage tgt = some tm)
    (hsched : ∀ n, st.saveOutcomes n = true) :
    applyZoneSwap src tgt st z
      = (storeMap (tick (storeMap (tick st) src (setZone sm z (tm z)))) tgt
          (setZone tm z (sm z)), ⟨z, true⟩) := by
  simp only [applyZoneSwap, saveBodyMapOp, hs, ht]
  dsimp only [storeMap, tick]
  simp only [hsched]

/-- When the save oracle always succeeds and both maps load, every
per-zone result of the loop reports success. -/
theorem runZoneSwaps_true_success (src tgt : CharId) (hne : src ≠ tgt) :
    ∀ (zones : List Zone) (st : EngineState) (sm tm : BodyMap),
      st.storage src = some sm → st.storage tgt = some tm →
      (∀ n, st.saveOutcomes n = true) →
      ∀ r ∈ (runZoneSwaps src tgt st zones).2, r.success = true := by
  intro zones
  induction zones with
  | nil =>
    intro st sm tm hs ht hsched r hr
    exact absurd hr (List.not_mem_nil r)
  | cons z rest ih =>
    intro st sm tm hs ht hsched r hr
    rcases hrec : runZoneSwaps src tgt
        (storeMap (tick (storeMap (tick st) src (setZone sm z (tm z)))) tgt
          (setZone tm z (sm z))) rest with ⟨st3, rs⟩
    have hstep : runZoneSwaps src tgt st (z :: rest) = (st3, ⟨z, true⟩ :: rs) := by
      simp only [runZoneSwaps, applyZoneSwap_true src tgt st z sm tm hs ht hsched, hrec]
    rw [hstep] at hr
    rcases List.mem_cons.1 hr with hhd | htl
    · rw [hhd]
    · exact ih
        (storeMap (tick (storeMap (tick st) src (setZone sm z (tm z)))) tgt
          (setZone tm z (sm z)))
        (setZone sm z (tm z)) (setZone tm z (sm z))
        (by simp [storeMap, tick, if_neg hne]) (by simp [storeMap, tick])
        hsched r (by rw [hrec]; exact htl)

/-- The `swapData` record that `executeSwap` builds. -/
def builtSwapData (st : EngineState) (src tgt : CharId) (zones : List Zone) :
    SwapData :=
  ⟨st.swapCounter + 1, src, tgt, zones, SwapStatus.active,
    some (cloneBodyMapZones (st.storage src) zones,
          cloneBodyMapZones (st.storage tgt) zones)⟩

/-- `executeSwap` always returns `success: true` with the bumped counter
as id, the zone list, and the loop's per-zone results. -/
theorem executeSwap_res (cfg : EngineConfig) (st : EngineState)
    (src tgt : CharId) (zones : List Zone) :
    (executeSwap cfg st src tgt zones).2
      = ⟨true, st.swapCounter + 1, zones,
          (runZoneSwaps src tgt { st with swapCounter := st.swapCounter + 1 }
            zones).2⟩ := by
  unfold executeSwap
  rcases hq : runZoneSwaps src tgt { st with swapCounter := st.swapCounter + 1 }
      zones with ⟨s1, rs⟩
  simp only [hq]

/-- `executeSwap` leaves storage exactly as the per-zone loop did. -/
theorem executeSwap_storage (cfg : EngineConfig) (st : EngineState)
    (src tgt : CharId) (zones : List Zone) :
    (executeSwap cfg st src tgt zones).1.storage
      = (runZoneSwaps src tgt { st with swapCounter := st.swapCounter + 1 }
          zones).1.storage := by
  unfold executeSwap
  rcases hq : runZoneSwaps src tgt { st with swapCounter := st.swapCounter + 1 }
      zones with ⟨s1, rs⟩
  simp only [hq]

/-- `executeSwap` does not change the save oracle. -/
theorem executeSwap_saveOutcomes (cfg : EngineConfig) (st : EngineState)
    (src tgt : CharId) (zones : List Zone) :
    (executeSwap cfg st src tgt zones).1.saveOutcomes = st.saveOutcomes := by
  unfold executeSwap
  rcases hq : runZoneSwaps src tgt { st with swapCounter := st.swapCounter + 1 }
      zones with ⟨s1, rs⟩
  have haux : sameAux s1 { st with swapCounter := st.swapCounter + 1 } := by
    have := runZoneSwaps_fields src tgt zones
      { st with swapCounter := st.swapCounter + 1 }
    rwa [hq] at this
  simp only [hq]
  exact haux.1

/-- `executeSwap` registers exactly one new record, under the bumped
counter, with status `active` and both snapshots present. -/
theorem executeSwap_activeSwaps (cfg : EngineConfig) (st : EngineState)
    (src tgt : CharId) (zones : List Zone) (i : Nat) :
    (executeSwap cfg st src tgt zones).1.activeSwaps i
      = if i = st.swapCounter + 1 then some (builtSwapData st src tgt zones)
        else st.activeSwaps i := by
  unfold executeSwap
  rcases hq : runZoneSwaps src tgt { st with swapCounter := st.swapCounter + 1 }
      zones with ⟨s1, rs⟩
  have haux : sameAux s1 { st with swapCounter := st.swapCounter + 1 } := by
    have := runZoneSwaps_fields src tgt zones
      { st with swapCounter := st.swapCounter + 1 }
    rwa [hq] at this
  simp only [hq]
  by_cases hi : i = st.swapCounter + 1
  · simp [hi, builtSwapData]
  · dsimp only
    rw [if_neg hi, if_neg hi]
    exact congrFun haux.2.1 i

/-- `executeSwap` unshifts the new record into the bounded history. -/
theorem executeSwap_history (cfg : EngineConfig) (st : EngineState)
    (src tgt : CharId) (zones : List Zone) :
    (executeSwap cfg st src tgt zones).1.swapHistory
      = addToHistoryE cfg.settings.historyLimit (builtSwapData st src tgt zones)
          st.swapHistory := by
  unfold executeSwap
  rcases hq : runZoneSwaps src tgt { st with swapCounter := st.swapCounter + 1 }
      zones with ⟨s1, rs⟩
  have haux : sameAux s1 { st with swapCounter := st.swapCounter + 1 } := by
    have := runZoneSwaps_fields src tgt zones
      { st with swapCounter := st.swapCounter + 1 }
    rwa [hq] at this
  simp only [hq]
  rw [haux.2.2.1]
  rfl

theorem finishSwap_eq (cfg : EngineConfig) (st0 : EngineState) (a b : String)
    (zones : List Zone) :
    finishSwap cfg st0 a b zones
      = (bumpSuccessful (executeSwap cfg st0 a b zones).1,
         some (executeSwap cfg st0 a b zones).2) := by
  unfold finishSwap
  rcases hq : executeSwap cfg st0 a b zones with ⟨s, r⟩
  simp only [hq]

/-- Inversion of a `performSwap` call that produced a (non-`null`)
result: the call passed the precondition and validation gates and handed
the mapper-resolved zone list to `executeSwap`; the interposed
statistics bumps touch no other field. -/
theorem performSwap_some (cfg : EngineConfig) (st stF : EngineState)
    (a b g : String) (res : SwapResult)
    (h : performSwap cfg st a b g = (stF, some res)) :
    a ≠ b ∧ a ≠ "" ∧ b ≠ "" ∧
    ∃ st0 : EngineState, ∃ gtype : String,
      getGarmentById g = some gtype ∧
      res.zones = cfg.mapper gtype ∧
      res.zones ≠ [] ∧
      st0.storage = st.storage ∧ st0.saveOutcomes = st.saveOutcomes ∧
      st0.saveClock = st.saveClock ∧ st0.activeSwaps = st.activeSwaps ∧
      st0.swapHistory = st.swapHistory ∧ st0.swapCounter = st.swapCounter ∧
      res = (executeSwap cfg st0 a b res.zones).2 ∧
      stF.storage = (executeSwap cfg st0 a b res.zones).1.storage ∧
      stF.saveOutcomes = (executeSwap cfg st0 a b res.zones).1.saveOutcomes ∧
      stF.activeSwaps = (executeSwap cfg st0 a b res.zones).1.activeSwaps ∧
      stF.swapHistory = (executeSwap cfg st0 a b res.zones).1.swapHistory := by
  have hfin : ∀ st0 : EngineState,
      st0.storage = st.storage → st0.saveOutcomes = st.saveOutcomes →
      st0.saveClock = st.saveClock → st0.activeSwaps = st.activeSwaps →
      st0.swapHistory = st.swapHistory → st0.swapCounter = st.swapCounter →
      ∀ gtype, getGarmentById g = some gtype → cfg.mapper gtype ≠ [] →
      finishSwap cfg st0 a b (cfg.mapper gtype) = (stF, some res) →
      ∃ st0 : EngineState, ∃ gtype : String,
        getGarmentById g = some gtype ∧
        res.zones = cfg.mapper gtype ∧
        res.zones ≠ [] ∧
        st0.storage = st.storage ∧ st0.saveOutcomes = st.saveOutcomes ∧
        st0.saveClock = st.saveClock ∧ st0.activeSwaps = st.activeSwaps ∧
        st0.swapHistory = st.swapHistory ∧ st0.swapCounter = st.swapCounter ∧
        res = (executeSwap cfg st0 a b res.zones).2 ∧
        stF.storage = (executeSwap cfg st0 a b res.zones).1.storage ∧
        stF.saveOutcomes = (executeSwap cfg st0 a b res.zones).1.saveOutcomes ∧
        stF.activeSwaps = (executeSwap cfg st0 a b res.zones).1.activeSwaps ∧
        stF.swapHistory = (executeSwap cfg st0 a b res.zones).1.swapHistory := by
    intro st0 e1 e2 e3 e4 e5 e6 gtype hgar hzempty hfin
    rw [finishSwap_eq] at hfin
    simp only [Prod.mk.injEq, Option.some.injEq] at hfin
    obtain ⟨h1, h2⟩ := hfin
    have hzones : res.zones = cfg.mapper gtype := by
      rw [← h2, executeSwap_res]
    rw [← hzones] at h1 h2 hzempty
    exact ⟨st0, gtype, hgar, hzones, hzempty, e1, e2, e3, e4, e5, e6, h2.symm,
      h1 ▸ rfl, h1 ▸ rfl, h1 ▸ rfl, h1 ▸ rfl⟩
  simp only [performSwap] at h
  split at h
  case isTrue hc => simp [Prod.mk.injEq] at h
  case isFalse hc =>
    split at h
    case isTrue hc2 => simp [Prod.mk.injEq] at h
    case isFalse hab =>
      push_neg at hc
      split at h
      case h_1 heqg => simp [Prod.mk.injEq] at h
      case h_2 gtype hgar =>
        split at h
        case isTrue hze => simp [Prod.mk.injEq] at h
        case isFalse hze =>
          refine ⟨hab, hc.1, hc.2.1, ?_⟩
          split at h
          case isTrue hval =>
            split at h
            case isTrue hvalid =>
              exact hfin (bumpTotal st) rfl rfl rfl rfl rfl rfl gtype hgar hze h
            case isFalse hvalid =>
              split at h
              case isTrue hallow =>
                exact hfin (bumpValidationErrors (bumpTotal st)) rfl rfl rfl rfl
                  rfl rfl gtype hgar hze h
              case isFalse hallow => simp [Prod.mk.injEq] at h
          case isFalse hval =>
            exact hfin (bumpTotal st) rfl rfl rfl rfl rfl rfl gtype hgar hze h

/-- Claim C1: a fully successful `performSwap` between distinct
characters exchanges exactly the listed zones — afterwards the source
holds the target's pre-swap value and vice versa at every swapped zone,
all other zones of both characters are unchanged, and every other
character's storage is untouched.  (The zone lists `performSwap` uses
are garment-derived sets, hence duplicate-free, which `res.zones.Nodup`
captures.) -/
theorem claim1_successful_swap_exchanges (cfg : EngineConfig)
    (st stF : EngineState) (a b g : String) (res : SwapResult)
    (sm tm : BodyMap)
    (hrun : performSwap cfg st a b g = (stF, some res))
    (hall : res.results.all (fun r => r.success) = true)
    (hnd : res.zones.Nodup)
    (hsm : st.storage a = some sm) (htm : st.storage b = some tm) :
    a ≠ b ∧ res.zones ≠ [] ∧
    ∃ sm2 tm2, stF.storage a = some sm2 ∧ stF.storage b = some tm2 ∧
      (∀ z ∈ res.zones, sm2 z = tm z ∧ tm2 z = sm z) ∧
      (∀ z, z ∉ res.zones → sm2 z = sm z ∧ tm2 z = tm z) ∧
      (∀ c, c ≠ a → c ≠ b → stF.storage c = st.storage c) := by
  obtain ⟨hab, ha, hb, st0, gtype, hgar, hzeq, hznil, e1, e2, e3, e4, e5, e6,
    hres, f1, f2, f3, f4⟩ := performSwap_some cfg st stF a b g res hrun
  set stX : EngineState := { st0 with swapCounter := st0.swapCounter + 1 } with hstX
  have hsX : stX.storage a = some sm := by
    show st0.storage a = some sm
    rw [e1]; exact hsm
  have htX : stX.storage b = some tm := by
    show st0.storage b = some tm
    rw [e1]; exact htm
  obtain ⟨sm2, tm2, g1, g2, g3, g4, g5, g6⟩ :=
    runZoneSwaps_spec a b hab res.zones stX sm tm hnd hsX htX
  have hstor : stF.storage = (runZoneSwaps a b stX res.zones).1.storage := by
    rw [f1, executeSwap_storage]
  have hresults : res.results = (runZoneSwaps a b stX res.zones).2 := by
    have h := congrArg SwapResult.results hres
    rw [executeSwap_res] at h
    exact h
  refine ⟨hab, hznil, sm2, tm2, by rw [hstor]; exact g1, by rw [hstor]; exact g2,
    ?_, ?_, ?_⟩
  · intro z hz
    have hzm : z ∈ (runZoneSwaps a b stX res.zones).2.map ZoneResult.zone := by
      rw [g3]; exact hz
    obtain ⟨r, hr, hrz⟩ := List.mem_map.1 hzm
    have hsucc : r.success = true := by
      have h := List.all_eq_true.1 hall r (by rw [hresults]; exact hr)
      simpa using h
    have h := g6 r hr hsucc
    rw [hrz] at h
    exact h
  · exact g5
  · intro c hc1 hc2
    rw [hstor, g4 c hc1 hc2]
    show st0.storage c = st.storage c
    rw [e1]

/-- Claim C3 (amended): when a zone exchange fails mid-sequence, the
error is caught inside `applyZoneSwap`; the failing zone is reported
`success: false` in the per-zone results, the remaining zones are still
attempted, the overall result still reports `success: true`, and the
zones that were exchanged remain swapped (no automatic rollback). -/
theorem claim3_partial_failure_behaviour (cfg : EngineConfig)
    (st stF : EngineState) (a b g : String) (res : SwapResult)
    (sm tm : BodyMap)
    (hrun : performSwap cfg st a b g = (stF, some res))
    (hnd : res.zones.Nodup)
    (hsm : st.storage a = some sm) (htm : st.storage b = some tm) :
    res.success = true ∧
    res.results.map ZoneResult.zone = res.zones ∧
    ∃ sm2 tm2, stF.storage a = some sm2 ∧ stF.storage b = some tm2 ∧
      (∀ r ∈ res.results, r.success = true →
        sm2 r.zone = tm r.zone ∧ tm2 r.zone = sm r.zone) ∧
      (∀ z, z ∉ res.zones → sm2 z = sm z ∧ tm2 z = tm z) := by
  obtain ⟨hab, ha, hb, st0, gtype, hgar, hzeq, hznil, e1, e2, e3, e4, e5, e6,
    hres, f1, f2, f3, f4⟩ := performSwap_some cfg st stF a b g res hrun
  set stX : EngineState := { st0 with swapCounter := st0.swapCounter + 1 } with hstX
  have hsX : stX.storage a = some sm := by
    show st0.storage a = some sm
    rw [e1]; exact hsm
  have htX : stX.storage b = some tm := by
    show st0.storage b = some tm
    rw [e1]; exact htm
  obtain ⟨sm2, tm2, g1, g2, g3, g4, g5, g6⟩ :=
    runZoneSwaps_spec a b hab res.zones stX sm tm hnd hsX htX
  have hstor : stF.storage = (runZoneSwaps a b stX res.zones).1.storage := by
    rw [f1, executeSwap_storage]
  have hresults : res.results = (runZoneSwaps a b stX res.zones).2 := by
    have h := congrArg SwapResult.results hres
    rw [executeSwap_res] at h
    exact h
  have hsucc : res.success = true := by
    have h := congrArg SwapResult.success hres
    rw [executeSwap_res] at h
    exact h
  refine ⟨hsucc, by rw [hresults, g3], sm2, tm2,
    by rw [hstor]; exact g1, by rw [hstor]; exact g2, ?_, g5⟩
  intro r hr hrs
  exact g6 r (by rw [← hresults]; exact hr) hrs

/-- Claim C4: with validation enabled and partial transformations
disallowed (strict policy), a validator-rejected swap aborts before any
mutation — storage, the active-swap set and the history are all exactly
as before the call, and the caller receives the `null` fallback. -/
theorem claim4_strict_validation_aborts (cfg : EngineConfig) (st : EngineState)
    (a b g : String)
    (hauto : cfg.settings.autoValidation = true)
    (hvt : cfg.settings.validateTransformations = true)
    (hstrict : cfg.settings.allowPartialTransformations = false)
    (hinvalid : ∀ gtype, getGarmentById g = some gtype →
      (cfg.validator (st.storage a) (st.storage b) (cfg.mapper gtype)).valid
        = false) :
    (performSwap cfg st a b g).2 = none ∧
    (performSwap cfg st a b g).1.storage = st.storage ∧
    (performSwap cfg st a b g).1.activeSwaps = st.activeSwaps ∧
    (performSwap cfg st a b g).1.swapHistory = st.swapHistory := by
  simp only [performSwap]
  dsimp only [bumpTotal]
  split
  · exact ⟨rfl, rfl, rfl, rfl⟩
  · split
    · exact ⟨rfl, rfl, rfl, rfl⟩
    · split
      case h_1 => exact ⟨rfl, rfl, rfl, rfl⟩
      case h_2 gtype hgar =>
        split
        · exact ⟨rfl, rfl, rfl, rfl⟩
        · rw [hauto, hvt, hinvalid gtype hgar, hstrict]
          simp only [Bool.and_self, if_true]
          split
          case isTrue hcc => exact absurd hcc (by simp)
          case isFalse hcc => exact ⟨rfl, rfl, rfl, rfl⟩

/-- When the source character's body map is missing from storage, every
zone exchange of the loop fails benignly — the state is untouched and
each zone's result reports failure. -/
theorem runZoneSwaps_missing_source (src tgt : CharId) :
    ∀ (zones : List Zone) (st : EngineState), st.storage src = none →
      runZoneSwaps src tgt st zones
        = (st, zones.map (fun z => ⟨z, false⟩)) := by
  intro zones
  induction zones with
  | nil => intro st hs; rfl
  | cons z rest ih =>
    intro st hs
    have happ : applyZoneSwap src tgt st z = (st, ⟨z, false⟩) := by
      simp only [applyZoneSwap, hs]
    simp only [runZoneSwaps, happ, ih st hs, List.map_cons]

/-- Claim C5 (amended): the precondition failures that the operations do
check — equal source and target ids, an unresolvable garment, an unknown
swap id, a non-active swap record, missing snapshots — throw typed
errors inside the operation, but `safeOperation` catches them, records
the message in the module error log, and returns the `null` fallback to
the immediate caller, who sees `none` rather than a typed failure.  A
missing (unresolvable) character, by contrast, is not detected as a
precondition failure at all: `performSwap` proceeds, nothing is thrown,
and the caller receives a `success: true` result in which every
per-zone exchange reports failure. -/
theorem claim5_failures_swallowed_to_null (cfg : EngineConfig)
    (st stF : EngineState) (a b g gBad gm : String) (res : SwapResult)
    (sidMissing sidStale sidNoSnap : Nat) (sdStale sdNoSnap : SwapData)
    (ha : a ≠ "") (hb : b ≠ "") (hg : g ≠ "") (hgBad : gBad ≠ "") (hab : a ≠ b)
    (hgar : getGarmentById gBad = none)
    (hmissid : st.activeSwaps sidMissing = none)
    (hstale : st.activeSwaps sidStale = some sdStale)
    (hstalest : sdStale.status ≠ SwapStatus.active)
    (hnosnap : st.activeSwaps sidNoSnap = some sdNoSnap)
    (hnosnapst : sdNoSnap.status = SwapStatus.active)
    (hnosnapo : sdNoSnap.originalStates = none)
    (hrun : performSwap cfg st a b gm = (stF, some res))
    (hcharmiss : st.storage a = none) :
    ((performSwap cfg st a a g).2 = none ∧
      (performSwap cfg st a a g).1.errors
        = st.errors ++ ["Source and target characters cannot be the same"]) ∧
    ((performSwap cfg st a b gBad).2 = none ∧
      (performSwap cfg st a b gBad).1.errors
        = st.errors ++ ["Garment not found"]) ∧
    ((reverseSwap st sidMissing).2 = none ∧
      (reverseSwap st sidMissing).1.errors
        = st.errors ++ ["Active swap not found"]) ∧
    ((reverseSwap st sidStale).2 = none ∧
      (reverseSwap st sidStale).1.errors
        = st.errors ++ ["Swap is not in active state"]) ∧
    ((reverseSwap st sidNoSnap).2 = none ∧
      (reverseSwap st sidNoSnap).1.errors
        = st.errors ++ ["No original states stored for swap"]) ∧
    (res.success = true ∧
      res.results = res.zones.map (fun z => ⟨z, false⟩)) := by
  refine ⟨?_, ?_, ?_, ?_, ?_, ?_⟩
  · simp only [performSwap]
    rw [if_neg (by simp [ha, hg])]
    split
    case isTrue hcc => exact ⟨rfl, rfl⟩
    case isFalse hcc => exact absurd trivial hcc
  · simp only [performSwap]
    rw [if_neg (by simp [ha, hb, hgBad]), if_neg hab, hgar]
    exact ⟨rfl, rfl⟩
  · simp only [reverseSwap, hmissid]
    refine ⟨?_, ?_⟩ <;> trivial
  · simp only [reverseSwap, hstale]
    rw [if_pos hstalest]
    exact ⟨rfl, rfl⟩
  · simp only [reverseSwap, hnosnap, hnosnapo]
    rw [if_neg (fun hcon => hcon hnosnapst)]
    exact ⟨rfl, rfl⟩
  · obtain ⟨hab2, ha2, hb2, st0, gtype, hgar2, hzeq, hznil, e1, e2, e3, e4, e5,
      e6, hres, f1, f2, f3, f4⟩ := performSwap_some cfg st stF a b gm res hrun
    have hmiss0 : ({ st0 with swapCounter := st0.swapCounter + 1 }
        : EngineState).storage a = none := by
      show st0.storage a = none
      rw [e1]; exact hcharmiss
    have hrz := runZoneSwaps_missing_source a b res.zones
      { st0 with swapCounter := st0.swapCounter + 1 } hmiss0
    constructor
    · have h := congrArg SwapResult.success hres
      rw [executeSwap_res] at h
      exact h
    · have h := congrArg SwapResult.results hres
      rw [executeSwap_res] at h
      rw [hrz] at h
      exact h

/-!
Concrete states for witnesses and counterexamples.
-/

/-- A validator that accepts every swap. -/
def alwaysValidValidator :
    Option BodyMap → Option BodyMap → List Zone → ValidationResult :=
  fun _ _ _ => ⟨true, []⟩

/-- A validator that rejects every swap. -/
def invalidValidator :
    Option BodyMap → Option BodyMap → List Zone → ValidationResult :=
  fun _ _ _ => ⟨false, ["invalid"]⟩

/-- Default-settings engine wired to the fallback zone mapping and an
accepting validator. -/
def cfg0 : EngineConfig := ⟨defaultSettings, fallbackZoneMapping, alwaysValidValidator⟩

/-- Strict engine: `allowPartialTransformations = false`, rejecting
validator. -/
def cfgStrict : EngineConfig :=
  ⟨{ defaultSettings with allowPartialTransformations := false },
    fallbackZoneMapping, invalidValidator⟩

/-- Body map of `c1`: flat chest, slim waist. -/
def m1 : BodyMap :=
  fun z => if z = "chest" then some "flat"
    else if z = "waist" then some "slim" else none

/-- Body map of `c2`: large chest, wide waist. -/
def m2 : BodyMap :=
  fun z => if z = "chest" then some "large"
    else if z = "waist" then some "wide" else none

/-- Body map with no chest zone at all. -/
def m3 : BodyMap := fun z => if z = "waist" then some "plain" else none

/-- Fresh engine state: characters `c1`/`c2` stored, all saves succeed. -/
def st0 : EngineState :=
  { storage := fun c => if c = "c1" then some m1
      else if c = "c2" then some m2 else none
    saveOutcomes := fun _ => true
    saveClock := 0
    activeSwaps := fun _ => none
    swapHistory := []
    swapCounter := 0
    stats := ⟨0, 0, 0, 0, 0⟩
    errors := [] }

/-- `st0` with the third save (the first save of the second zone)
throwing: the `waist` exchange of a `["chest", "waist"]` swap fails
after `chest` succeeded. -/
def stPartial : EngineState := { st0 with saveOutcomes := fun n => decide (n ≠ 2) }

/-- `st0` with `c1` lacking the chest zone entirely. -/
def stNoChest : EngineState :=
  { st0 with storage := fun c => if c = "c1" then some m3
      else if c = "c2" then some m2 else none }

/-- Witness for C1: swapping garment `alice.0` (a bra, zones
`["chest"]`) between `c1` and `c2` moves `large` onto `c1` and `flat`
onto `c2` while `c1`'s waist keeps `slim`. -/
theorem claim1_witness :
    loadZone (performSwap cfg0 st0 "c1" "c2" "alice.0").1 "c1" "chest" = some "large" ∧
    loadZone (performSwap cfg0 st0 "c1" "c2" "alice.0").1 "c2" "chest" = some "flat" ∧
    loadZone (performSwap cfg0 st0 "c1" "c2" "alice.0").1 "c1" "waist" = some "slim" := by
  obtain ⟨hab, hne, sm2, tm2, h1, h2, h3, h4, h5⟩ :=
    claim1_successful_swap_exchanges cfg0 st0
      (performSwap cfg0 st0 "c1" "c2" "alice.0").1 "c1" "c2" "alice.0"
      ⟨true, 1, ["chest"], [⟨"chest", true⟩]⟩ m1 m2
      rfl (by decide) (by decide) rfl rfl
  have hc := h3 "chest" (by decide)
  have hw := h4 "waist" (by decide)
  refine ⟨?_, ?_, ?_⟩
  · show orEmpty ((performSwap cfg0 st0 "c1" "c2" "alice.0").1.storage "c1") "chest"
      = some "large"
    rw [h1]
    show sm2 "chest" = some "large"
    rw [hc.1]
    rfl
  · show orEmpty ((performSwap cfg0 st0 "c1" "c2" "alice.0").1.storage "c2") "chest"
      = some "flat"
    rw [h2]
    show tm2 "chest" = some "flat"
    rw [hc.2]
    rfl
  · show orEmpty ((performSwap cfg0 st0 "c1" "c2" "alice.0").1.storage "c1") "waist"
      = some "slim"
    rw [h1]
    show sm2 "waist" = some "slim"
    rw [hw.1]
    rfl

/-- Counterexample to C3 as stated: garment `bob.3` (a shirt, zones
`["chest", "waist"]`) between `c1` and `c2` under `stPartial`, where the
`waist` exchange throws after `chest` succeeded.  The returned result
reports `success = true` — not `success = false` as the claim states —
while the per-zone results flag `waist` as failed; `chest` stays swapped
and `waist` keeps its old values on both characters. -/
theorem claim3_counterexample :
    (performSwap cfg0 stPartial "c1" "c2" "bob.3").2
      = some ⟨true, 1, ["chest", "waist"], [⟨"chest", true⟩, ⟨"waist", false⟩]⟩ ∧
    loadZone (performSwap cfg0 stPartial "c1" "c2" "bob.3").1 "c1" "chest" = some "large" ∧
    loadZone (performSwap cfg0 stPartial "c1" "c2" "bob.3").1 "c2" "chest" = some "flat" ∧
    loadZone (performSwap cfg0 stPartial "c1" "c2" "bob.3").1 "c1" "waist" = some "slim" ∧
    loadZone (performSwap cfg0 stPartial "c1" "c2" "bob.3").1 "c2" "waist" = some "wide" := by
  refine ⟨?_, ?_, ?_, ?_, ?_⟩ <;> decide

/-- Witness for the amended C3 at the same partial-failure run: the
theorem yields `success = true` for the overall result and that the
successfully exchanged `chest` zone remains swapped. -/
theorem claim3_witness :
    (⟨true, 1, ["chest", "waist"],
        [⟨"chest", true⟩, ⟨"waist", false⟩]⟩ : SwapResult).success = true ∧
    loadZone (performSwap cfg0 stPartial "c1" "c2" "bob.3").1 "c1" "chest"
      = some "large" := by
  obtain ⟨h0, hmap, sm2, tm2, h1, h2, h3, h4⟩ :=
    claim3_partial_failure_behaviour cfg0 stPartial
      (performSwap cfg0 stPartial "c1" "c2" "bob.3").1 "c1" "c2" "bob.3"
      ⟨true, 1, ["chest", "waist"], [⟨"chest", true⟩, ⟨"waist", false⟩]⟩ m1 m2
      rfl (by decide) rfl rfl
  have hc := h3 ⟨"chest", true⟩ (by decide) rfl
  refine ⟨h0, ?_⟩
  show orEmpty ((performSwap cfg0 stPartial "c1" "c2" "bob.3").1.storage "c1") "chest"
    = some "large"
  rw [h1]
  show sm2 "chest" = some "large"
  rw [hc.1]
  rfl

/-- Witness for C4: under the strict config the rejected swap returns
the `null` fallback and leaves storage, active swaps and history
untouched. -/
theorem claim4_witness :
    (performSwap cfgStrict st0 "c1" "c2" "alice.0").2 = none ∧
    (performSwap cfgStrict st0 "c1" "c2" "alice.0").1.storage = st0.storage ∧
    (performSwap cfgStrict st0 "c1" "c2" "alice.0").1.activeSwaps = st0.activeSwaps ∧
    (performSwap cfgStrict st0 "c1" "c2" "alice.0").1.swapHistory = st0.swapHistory :=
  claim4_strict_validation_aborts cfgStrict st0 "c1" "c2" "alice.0" rfl rfl rfl
    (fun _ _ => rfl)

/-- Counterexample to C5 as stated: `performSwap(c1, c1, ...)` — equal
source and target, a typed precondition failure — reaches the caller as
the generic `null` fallback (the typed error is only recorded in the
module error log), so the failure IS swallowed into a null result. -/
theorem claim5_counterexample :
    (performSwap cfg0 st0 "c1" "c1" "alice.0").2 = none ∧
    (performSwap cfg0 st0 "c1" "c1" "alice.0").1.errors
      = ["Source and target characters cannot be the same"] := by
  refine ⟨?_, ?_⟩ <;> decide

/-- A failed record and an active-but-snapshotless record for the C5
witness. -/
def sdFailed : SwapData :=
  ⟨3, "c1", "c2", ["chest"], SwapStatus.failed, some (emptyBodyMap, emptyBodyMap)⟩

/-- An active record whose `originalStates` was never assigned. -/
def sdNoSnaps : SwapData := ⟨4, "c1", "c2", ["chest"], SwapStatus.active, none⟩

/-- State for the C5 witness: `c1` has no stored body map, `c2` does;
id 3 holds a failed record, id 4 an active record without snapshots. -/
def stC5 : EngineState :=
  { st0 with
      storage := fun c => if c = "c2" then some m2 else none
      activeSwaps := fun i => if i = 3 then some sdFailed
        else if i = 4 then some sdNoSnaps else none }

/-- Witness for the amended C5 at concrete inputs: equal ids, an
unresolvable garment id, an unknown swap id, a failed record, a
snapshotless record — each returns `none` with its typed message logged
— and a `performSwap` whose source character is missing, which returns a
`success: true` result with its one zone marked failed. -/
theorem claim5_witness :
    ((performSwap cfg0 stC5 "c1" "c1" "alice.0").2 = none ∧
      (performSwap cfg0 stC5 "c1" "c1" "alice.0").1.errors
        = stC5.errors ++ ["Source and target characters cannot be the same"]) ∧
    ((performSwap cfg0 stC5 "c1" "c2" "nonsense").2 = none ∧
      (performSwap cfg0 stC5 "c1" "c2" "nonsense").1.errors
        = stC5.errors ++ ["Garment not found"]) ∧
    ((reverseSwap stC5 7).2 = none ∧
      (reverseSwap stC5 7).1.errors = stC5.errors ++ ["Active swap not found"]) ∧
    ((reverseSwap stC5 3).2 = none ∧
      (reverseSwap stC5 3).1.errors
        = stC5.errors ++ ["Swap is not in active state"]) ∧
    ((reverseSwap stC5 4).2 = none ∧
      (reverseSwap stC5 4).1.errors
        = stC5.errors ++ ["No original states stored for swap"]) ∧
    ((⟨true, 1, ["chest"], [⟨"chest", false⟩]⟩ : SwapResult).success = true ∧
      (⟨true, 1, ["chest"], [⟨"chest", false⟩]⟩ : SwapResult).results
        = (⟨true, 1, ["chest"], [⟨"chest", false⟩]⟩ : SwapResult).zones.map
            (fun z => ⟨z, false⟩)) :=
  claim5_failures_swallowed_to_null cfg0 stC5
    (performSwap cfg0 stC5 "c1" "c2" "alice.0").1
    "c1" "c2" "alice.0" "nonsense" "alice.0"
    ⟨true, 1, ["chest"], [⟨"chest", false⟩]⟩ 7 3 4 sdFailed sdNoSnaps
    (by decide) (by decide) (by decide) (by decide) (by decide) (by decide)
    rfl rfl (by decide) rfl rfl rfl rfl rfl

/-- An active record with snapshots present, distinct participants and a
succeeding save oracle takes `reverseSwap` down the success path: both
characters' maps become the snapshot-spread of their current maps, other
characters are untouched, and the record leaves `activeSwaps`. -/
theorem reverseSwap_true_spec (st : EngineState) (swapId : Nat) (sd : SwapData)
    (os ot : BodyMap)
    (hact : st.activeSwaps swapId = some sd)
    (hstat : sd.status = SwapStatus.active)
    (horig : sd.originalStates = some (os, ot))
    (hab : sd.sourceCharId ≠ sd.targetCharId)
    (h1 : st.saveOutcomes st.saveClock = true)
    (h2 : st.saveOutcomes (st.saveClock + 1) = true) :
    (reverseSwap st swapId).2 = some ⟨true, swapId⟩ ∧
    (reverseSwap st swapId).1.storage sd.sourceCharId
      = some (overrideMap (orEmpty (st.storage sd.sourceCharId)) os) ∧
    (reverseSwap st swapId).1.storage sd.targetCharId
      = some (overrideMap (orEmpty (st.storage sd.targetCharId)) ot) ∧
    (∀ c, c ≠ sd.sourceCharId → c ≠ sd.targetCharId →
      (reverseSwap st swapId).1.storage c = st.storage c) ∧
    (reverseSwap st swapId).1.activeSwaps swapId = none := by
  have hrev : reverseSwap st swapId
      = (finalizeReverse
          (storeMap (tick (storeMap (tick st) sd.sourceCharId
              (overrideMap (orEmpty (st.storage sd.sourceCharId)) os)))
            sd.targetCharId (overrideMap (orEmpty (st.storage sd.targetCharId)) ot))
          swapId sd,
         some ⟨true, swapId⟩) := by
    simp only [reverseSwap, hact, hstat, horig, saveBodyMapOp]
    dsimp only [storeMap, tick]
    simp only [h1, h2, ne_eq, not_true_eq_false, if_false]
  rw [hrev]
  refine ⟨rfl, ?_, ?_, ?_, ?_⟩
  · show (finalizeReverse _ swapId sd).storage sd.sourceCharId = _
    dsimp only [finalizeReverse, bumpReversed, storeMap, tick]
    rw [if_neg hab, if_pos rfl]
  · show (finalizeReverse _ swapId sd).storage sd.targetCharId = _
    dsimp only [finalizeReverse, bumpReversed, storeMap, tick]
    rw [if_pos rfl]
  · intro c hc1 hc2
    dsimp only [finalizeReverse, bumpReversed, storeMap, tick]
    rw [if_neg hc2, if_neg hc1]
  · dsimp only [finalizeReverse, bumpReversed]
    rw [if_pos rfl]

/-- Full-success characterization of the per-zone loop: with a
succeeding save oracle, both loaded maps and duplicate-free zones, every
result succeeds and the final maps are pointwise the exchange of the
originals on the zone set. -/
theorem runZoneSwaps_true_char (src tgt : CharId) (st : EngineState)
    (zones : List Zone) (sm tm : BodyMap)
    (hne : src ≠ tgt) (hnd : zones.Nodup)
    (hs : st.storage src = some sm) (ht : st.storage tgt = some tm)
    (hsched : ∀ n, st.saveOutcomes n = true) :
    (∀ r ∈ (runZoneSwaps src tgt st zones).2, r.success = true) ∧
    (∀ z, loadZone (runZoneSwaps src tgt st zones).1 src z
      = if z ∈ zones then tm z else sm z) ∧
    (∀ z, loadZone (runZoneSwaps src tgt st zones).1 tgt z
      = if z ∈ zones then sm z else tm z) ∧
    (∀ c, c ≠ src → c ≠ tgt →
      (runZoneSwaps src tgt st zones).1.storage c = st.storage c) := by
  have hsucc := runZoneSwaps_true_success src tgt hne zones st sm tm hs ht hsched
  obtain ⟨sm2, tm2, g1, g2, g3, g4, g5, g6⟩ :=
    runZoneSwaps_spec src tgt hne zones st sm tm hnd hs ht
  refine ⟨hsucc, ?_, ?_, g4⟩
  · intro z
    show orEmpty ((runZoneSwaps src tgt st zones).1.storage src) z = _
    rw [g1]
    show sm2 z = _
    by_cases hz : z ∈ zones
    · rw [if_pos hz]
      have hzm : z ∈ (runZoneSwaps src tgt st zones).2.map ZoneResult.zone := by
        rw [g3]; exact hz
      obtain ⟨r, hr, hrz⟩ := List.mem_map.1 hzm
      have h := g6 r hr (hsucc r hr)
      rw [hrz] at h
      exact h.1
    · rw [if_neg hz]
      exact (g5 z hz).1
  · intro z
    show orEmpty ((runZoneSwaps src tgt st zones).1.storage tgt) z = _
    rw [g2]
    show tm2 z = _
    by_cases hz : z ∈ zones
    · rw [if_pos hz]
      have hzm : z ∈ (runZoneSwaps src tgt st zones).2.map ZoneResult.zone := by
        rw [g3]; exact hz
      obtain ⟨r, hr, hrz⟩ := List.mem_map.1 hzm
      have h := g6 r hr (hsucc r hr)
      rw [hrz] at h
      exact h.2
    · rw [if_neg hz]
      exact (g5 z hz).2

/-- Claim C2 (amended): after a fully successful `performSwap` (all
saves succeed), an immediate `reverseSwap` of the returned swap id
restores both characters exactly — provided every swapped zone was
present in both characters' body maps before the swap.  (A zone absent
on one side is skipped by `cloneBodyMapZones` and is NOT restored; see
the counterexample.)  The record also leaves the active set. -/
theorem claim2_reverse_restores (cfg : EngineConfig) (st stF : EngineState)
    (a b g : String) (res : SwapResult) (sm tm : BodyMap)
    (hrun : performSwap cfg st a b g = (stF, some res))
    (hnd : res.zones.Nodup)
    (hsm : st.storage a = some sm) (htm : st.storage b = some tm)
    (hpres : ∀ z ∈ res.zones, (sm z).isSome ∧ (tm z).isSome)
    (hsched : ∀ n, st.saveOutcomes n = true) :
    (reverseSwap stF res.swapId).2 = some ⟨true, res.swapId⟩ ∧
    (reverseSwap stF res.swapId).1.activeSwaps res.swapId = none ∧
    ∃ smR tmR,
      (reverseSwap stF res.swapId).1.storage a = some smR ∧
      (reverseSwap stF res.swapId).1.storage b = some tmR ∧
      (∀ z, smR z = sm z) ∧ (∀ z, tmR z = tm z) ∧
      (∀ c, c ≠ a → c ≠ b →
        (reverseSwap stF res.swapId).1.storage c = st.storage c) := by
  obtain ⟨hab, ha, hb, st0, gtype, hgar, hzeq, hznil, e1, e2, e3, e4, e5, e6,
    hres, f1, f2, f3, f4⟩ := performSwap_some cfg st stF a b g res hrun
  set stX : EngineState := { st0 with swapCounter := st0.swapCounter + 1 } with hstX
  have hsX : stX.storage a = some sm := by
    show st0.storage a = some sm
    rw [e1]; exact hsm
  have htX : stX.storage b = some tm := by
    show st0.storage b = some tm
    rw [e1]; exact htm
  have hschedX : ∀ n, stX.saveOutcomes n = true := by
    intro n
    show st0.saveOutcomes n = true
    rw [e2]; exact hsched n
  obtain ⟨hsucc, lSrc, lTgt, oth⟩ :=
    runZoneSwaps_true_char a b stX res.zones sm tm hab hnd hsX htX hschedX
  have hsid : res.swapId = st0.swapCounter + 1 := by
    have h := congrArg SwapResult.swapId hres
    rw [executeSwap_res] at h
    exact h
  have hact : stF.activeSwaps res.swapId = some (builtSwapData st0 a b res.zones) := by
    rw [f3, executeSwap_activeSwaps, if_pos hsid]
  have hstor : stF.storage = (runZoneSwaps a b stX res.zones).1.storage := by
    rw [f1, executeSwap_storage]
  have hFsched : ∀ n, stF.saveOutcomes n = true := by
    intro n
    rw [f2, executeSwap_saveOutcomes]
    show st0.saveOutcomes n = true
    rw [e2]; exact hsched n
  obtain ⟨r1, r2, r3, r4, r5⟩ :=
    reverseSwap_true_spec stF res.swapId (builtSwapData st0 a b res.zones)
      (cloneBodyMapZones (st0.storage a) res.zones)
      (cloneBodyMapZones (st0.storage b) res.zones)
      hact rfl rfl hab (hFsched stF.saveClock) (hFsched (stF.saveClock + 1))
  have hosnA : ∀ z, cloneBodyMapZones (st0.storage a) res.zones z
      = if z ∈ res.zones then sm z else none := by
    intro z
    show (if z ∈ res.zones then orEmpty (st0.storage a) z else none) = _
    rw [e1, hsm]
    rfl
  have hosnB : ∀ z, cloneBodyMapZones (st0.storage b) res.zones z
      = if z ∈ res.zones then tm z else none := by
    intro z
    show (if z ∈ res.zones then orEmpty (st0.storage b) z else none) = _
    rw [e1, htm]
    rfl
  refine ⟨r1, r5, _, _, r2, r3, ?_, ?_, ?_⟩
  · intro z
    show overrideMap (orEmpty (stF.storage a))
      (cloneBodyMapZones (st0.storage a) res.zones) z = sm z
    unfold overrideMap
    rw [hosnA z]
    by_cases hz : z ∈ res.zones
    · rw [if_pos hz]
      obtain ⟨v, hv⟩ := Option.isSome_iff_exists.1 (hpres z hz).1
      rw [hv]
    · rw [if_neg hz]
      show orEmpty (stF.storage a) z = sm z
      rw [hstor]
      exact (lSrc z).trans (if_neg hz)
  · intro z
    show overrideMap (orEmpty (stF.storage b))
      (cloneBodyMapZones (st0.storage b) res.zones) z = tm z
    unfold overrideMap
    rw [hosnB z]
    by_cases hz : z ∈ res.zones
    · rw [if_pos hz]
      obtain ⟨v, hv⟩ := Option.isSome_iff_exists.1 (hpres z hz).2
      rw [hv]
    · rw [if_neg hz]
      show orEmpty (stF.storage b) z = tm z
      rw [hstor]
      exact (lTgt z).trans (if_neg hz)
  · intro c hc1 hc2
    rw [r4 c hc1 hc2, hstor, oth c hc1 hc2]
    show st0.storage c = st.storage c
    rw [e1]

/-- Counterexample to C2 as stated: `c1` has no chest zone, `c2` has
chest `large`.  A fully successful bra swap followed by its successful
reversal leaves `c1.chest = "large"` — not restored to absent — because
`cloneBodyMapZones` skipped the absent zone in the snapshot.  (`c2` is
restored correctly.) -/
theorem claim2_counterexample :
    loadZone stNoChest "c1" "chest" = none ∧
    (performSwap cfg0 stNoChest "c1" "c2" "alice.0").2
      = some ⟨true, 1, ["chest"], [⟨"chest", true⟩]⟩ ∧
    (reverseSwap (performSwap cfg0 stNoChest "c1" "c2" "alice.0").1 1).2
      = some ⟨true, 1⟩ ∧
    loadZone (reverseSwap (performSwap cfg0 stNoChest "c1" "c2" "alice.0").1 1).1
      "c1" "chest" = some "large" ∧
    loadZone (reverseSwap (performSwap cfg0 stNoChest "c1" "c2" "alice.0").1 1).1
      "c2" "chest" = some "large" := by
  refine ⟨?_, ?_, ?_, ?_, ?_⟩ <;> decide

/-- Witness for the amended C2: a shirt swap (`chest` and `waist`, both
present on both characters) between `c1` and `c2`, then its reversal,
restores the original values. -/
theorem claim2_witness :
    (reverseSwap (performSwap cfg0 st0 "c1" "c2" "bob.3").1 1).2 = some ⟨true, 1⟩ ∧
    loadZone (reverseSwap (performSwap cfg0 st0 "c1" "c2" "bob.3").1 1).1 "c1" "chest"
      = some "flat" ∧
    loadZone (reverseSwap (performSwap cfg0 st0 "c1" "c2" "bob.3").1 1).1 "c2" "chest"
      = some "large" := by
  obtain ⟨r1, r2, smR, tmR, h1, h2, h3, h4, h5⟩ :=
    claim2_reverse_restores cfg0 st0 (performSwap cfg0 st0 "c1" "c2" "bob.3").1
      "c1" "c2" "bob.3"
      ⟨true, 1, ["chest", "waist"], [⟨"chest", true⟩, ⟨"waist", true⟩]⟩
      m1 m2 rfl (by decide) rfl rfl (by decide) (fun _ => rfl)
  refine ⟨r1, ?_, ?_⟩
  · show orEmpty
      ((reverseSwap (performSwap cfg0 st0 "c1" "c2" "bob.3").1 1).1.storage "c1")
      "chest" = some "flat"
    rw [h1]
    show smR "chest" = some "flat"
    rw [h3 "chest"]
    rfl
  · show orEmpty
      ((reverseSwap (performSwap cfg0 st0 "c1" "c2" "bob.3").1 1).1.storage "c2")
      "chest" = some "large"
    rw [h2]
    show tmR "chest" = some "large"
    rw [h4 "chest"]
    rfl

/-- Claim C6: for distinct characters, a duplicate-free zone set and any
permutation of it, running the per-zone exchanges of a fully successful
swap in either order succeeds zone by zone and produces identical final
body maps for both characters (and touches no other character). -/
theorem claim6_zone_order_independent (st : EngineState) (src tgt : CharId)
    (zs1 zs2 : List Zone) (sm tm : BodyMap)
    (hne : src ≠ tgt) (hnd : zs1.Nodup) (hperm : zs1.Perm zs2)
    (hs : st.storage src = some sm) (ht : st.storage tgt = some tm)
    (hsched : ∀ n, st.saveOutcomes n = true) :
    (∀ r ∈ (runZoneSwaps src tgt st zs1).2, r.success = true) ∧
    (∀ r ∈ (runZoneSwaps src tgt st zs2).2, r.success = true) ∧
    (∀ z, loadZone (runZoneSwaps src tgt st zs1).1 src z
        = loadZone (runZoneSwaps src tgt st zs2).1 src z) ∧
    (∀ z, loadZone (runZoneSwaps src tgt st zs1).1 tgt z
        = loadZone (runZoneSwaps src tgt st zs2).1 tgt z) ∧
    (∀ c, c ≠ src → c ≠ tgt →
      (runZoneSwaps src tgt st zs1).1.storage c
        = (runZoneSwaps src tgt st zs2).1.storage c) := by
  obtain ⟨s1, l1s, l1t, o1⟩ :=
    runZoneSwaps_true_char src tgt st zs1 sm tm hne hnd hs ht hsched
  obtain ⟨s2, l2s, l2t, o2⟩ :=
    runZoneSwaps_true_char src tgt st zs2 sm tm hne (hperm.nodup_iff.1 hnd)
      hs ht hsched
  refine ⟨s1, s2, ?_, ?_, ?_⟩
  · intro z
    rw [l1s z, l2s z]
    by_cases hz : z ∈ zs1
    · rw [if_pos hz, if_pos (hperm.mem_iff.1 hz)]
    · rw [if_neg hz, if_neg (fun h => hz (hperm.mem_iff.2 h))]
  · intro z
    rw [l1t z, l2t z]
    by_cases hz : z ∈ zs1
    · rw [if_pos hz, if_pos (hperm.mem_iff.1 hz)]
    · rw [if_neg hz, if_neg (fun h => hz (hperm.mem_iff.2 h))]
  · intro c hc1 hc2
    rw [o1 c hc1 hc2, o2 c hc1 hc2]

/-- Witness for C6: exchanging `["chest", "waist"]` and
`["waist", "chest"]` between `c1` and `c2` gives the same final chest
and waist values on both characters. -/
theorem claim6_witness :
    loadZone (runZoneSwaps "c1" "c2" st0 ["chest", "waist"]).1 "c1" "chest"
      = loadZone (runZoneSwaps "c1" "c2" st0 ["waist", "chest"]).1 "c1" "chest" ∧
    loadZone (runZoneSwaps "c1" "c2" st0 ["chest", "waist"]).1 "c1" "waist"
      = loadZone (runZoneSwaps "c1" "c2" st0 ["waist", "chest"]).1 "c1" "waist" ∧
    loadZone (runZoneSwaps "c1" "c2" st0 ["chest", "waist"]).1 "c2" "chest"
      = loadZone (runZoneSwaps "c1" "c2" st0 ["waist", "chest"]).1 "c2" "chest" := by
  obtain ⟨s1, s2, hsrc, htgt, hoth⟩ :=
    claim6_zone_order_independent st0 "c1" "c2" ["chest", "waist"]
      ["waist", "chest"] m1 m2 (by decide) (by decide) (by decide) rfl rfl
      (fun _ => rfl)
  exact ⟨hsrc "chest", hsrc "waist", htgt "chest"⟩

/-!
Claim C10: only `active` records live in the active-swap set.
-/

/-- Invariant: every record in `activeSwaps` has status `active`. -/
def activeSwapsInv (st : EngineState) : Prop :=
  ∀ i sd, st.activeSwaps i = some sd → sd.status = SwapStatus.active

theorem performSwap_activeSwaps_inv (cfg : EngineConfig) (st : EngineState)
    (a b g : String) (hinv : activeSwapsInv st) :
    activeSwapsInv (performSwap cfg st a b g).1 := by
  have hfin : ∀ stB : EngineState, stB.activeSwaps = st.activeSwaps →
      ∀ zones, activeSwapsInv (finishSwap cfg stB a b zones).1 := by
    intro stB hB zones i sd h
    rw [finishSwap_eq] at h
    have h2 : (executeSwap cfg stB a b zones).1.activeSwaps i = some sd := h
    rw [executeSwap_activeSwaps] at h2
    by_cases hi : i = stB.swapCounter + 1
    · rw [if_pos hi] at h2
      rw [← Option.some.inj h2]
      rfl
    · rw [if_neg hi] at h2
      rw [hB] at h2
      exact hinv i sd h2
  simp only [performSwap]
  split
  · exact fun i sd h => hinv i sd h
  · split
    · exact fun i sd h => hinv i sd h
    · split
      case h_1 => exact fun i sd h => hinv i sd h
      case h_2 gtype hgar =>
        split
        · exact fun i sd h => hinv i sd h
        · split
          · split
            · exact hfin (bumpTotal st) rfl _
            · split
              · exact hfin (bumpValidationErrors (bumpTotal st)) rfl _
              · exact fun i sd h => hinv i sd h
          · exact hfin (bumpTotal st) rfl _

theorem reverseSwap_activeSwaps_inv (st : EngineState) (sid : Nat)
    (hinv : activeSwapsInv st) : activeSwapsInv (reverseSwap st sid).1 := by
  simp only [reverseSwap]
  split
  case h_1 => exact fun i sd h => hinv i sd h
  case h_2 sd0 hact =>
    split
    · exact fun i sd h => hinv i sd h
    · split
      case h_1 => exact fun i sd h => hinv i sd h
      case h_2 os ot horig =>
        split
        case h_1 st1 heq1 =>
          split
          case h_1 st2 heq2 =>
            intro i sd h
            have a1 : st1.activeSwaps = st.activeSwaps := by
              have hx := saveBodyMapOp_fields st sd0.sourceCharId
                (overrideMap (orEmpty (st.storage sd0.sourceCharId)) os)
              rw [heq1] at hx
              exact hx.2.1
            have a2 : st2.activeSwaps = st.activeSwaps := by
              have hx := saveBodyMapOp_fields st1 sd0.targetCharId
                (overrideMap (orEmpty (st.storage sd0.targetCharId)) ot)
              rw [heq2] at hx
              exact hx.2.1.trans a1
            dsimp only [finalizeReverse, bumpReversed] at h
            by_cases hi : i = sid
            · rw [if_pos hi] at h
              exact absurd h (by simp)
            · rw [if_neg hi] at h
              rw [a2] at h
              exact hinv i sd h
          case h_2 st2 heq2 =>
            intro i sd h
            have a1 : st1.activeSwaps = st.activeSwaps := by
              have hx := saveBodyMapOp_fields st sd0.sourceCharId
                (overrideMap (orEmpty (st.storage sd0.sourceCharId)) os)
              rw [heq1] at hx
              exact hx.2.1
            have a2 : st2.activeSwaps = st.activeSwaps := by
              have hx := saveBodyMapOp_fields st1 sd0.targetCharId
                (overrideMap (orEmpty (st.storage sd0.targetCharId)) ot)
              rw [heq2] at hx
              exact hx.2.1.trans a1
            have h2 : st2.activeSwaps i = some sd := h
            rw [a2] at h2
            exact hinv i sd h2
        case h_2 st1 heq1 =>
          intro i sd h
          have a1 : st1.activeSwaps = st.activeSwaps := by
            have hx := saveBodyMapOp_fields st sd0.sourceCharId
              (overrideMap (orEmpty (st.storage sd0.sourceCharId)) os)
            rw [heq1] at hx
            exact hx.2.1
          have h2 : st1.activeSwaps i = some sd := h
          rw [a1] at h2
          exact hinv i sd h2

theorem performCleanupE_activeSwaps_inv (st : EngineState)
    (recent : SwapData → Bool) (hinv : activeSwapsInv st) :
    activeSwapsInv (performCleanupE st recent) := by
  intro i sd h
  have h2 : (match st.activeSwaps i with
      | some sd0 => if sd0.status = SwapStatus.failed then none else some sd0
      | none => none) = some sd := h
  rcases hact : st.activeSwaps i with _ | sd0
  · rw [hact] at h2
    exact absurd h2 (by simp)
  · rw [hact] at h2
    have h3 : (if sd0.status = SwapStatus.failed then none else some sd0)
        = some sd := h2
    by_cases hf : sd0.status = SwapStatus.failed
    · rw [if_pos hf] at h3
      exact absurd h3 (by simp)
    · rw [if_neg hf] at h3
      rw [← Option.some.inj h3]
      exact hinv i sd0 hact

/-- Claim C10: from any state whose active-swap set holds only `active`
records, `performSwap` (which registers new records as `active` and
never registers failed ones), `reverseSwap` (which removes the record in
the same step that marks it `reversed`, and leaves it `active` on
failure) and `performCleanup` (which only removes records) preserve the
invariant. -/
theorem claim10_active_set_only_active (st : EngineState) (cfg : EngineConfig)
    (a b g : String) (sid : Nat) (recent : SwapData → Bool)
    (hinv : activeSwapsInv st) :
    activeSwapsInv (performSwap cfg st a b g).1 ∧
    activeSwapsInv (reverseSwap st sid).1 ∧
    activeSwapsInv (performCleanupE st recent) :=
  ⟨performSwap_activeSwaps_inv cfg st a b g hinv,
    reverseSwap_activeSwaps_inv st sid hinv,
    performCleanupE_activeSwaps_inv st recent hinv⟩

/-- Witness for C10 at the fresh state `st0` (empty active set). -/
theorem claim10_witness :
    activeSwapsInv (performSwap cfg0 st0 "c1" "c2" "alice.0").1 ∧
    activeSwapsInv (reverseSwap st0 1).1 ∧
    activeSwapsInv (performCleanupE st0 (fun _ => true)) :=
  claim10_active_set_only_active st0 cfg0 "c1" "c2" "alice.0" 1 (fun _ => true)
    (fun _ _ h => Option.noConfusion h)
